import Mathlib

/-! boltstore: the session store over an embedded key-value database

A shallow embedding of `store/store.go` (package `store`).  The methods of
`Store` are translated one for one, with the state they touch made explicit:
the database, the session handle and the request context are passed in and
the updated ones are returned.

The collaborators that `store.go` imports are not part of the package.  They
appear as follows.

* `bolt` (the key-value engine): a small executable model, `DB`, `DB.View`,
  `DB.Update`, `DB.UpdateInView`, `Bucket.Get`, `Bucket.Put`, `Bucket.Delete`.
  A call that never returns is part of the model: `Store.load` opens a
  read-write transaction inside its read-only transaction, and the commit of
  the inner one waits forever when it has to remap the data file.
* `securecookie`, `gob`, `proto` and the sibling package `shared`: fields of
  the records `Codecs` and `Deps`, so every theorem holds for all of them.
* `encoding/base32` and `strings.TrimRight`: executable definitions.
* the clock (`time.Now`) and the random source: arguments `now` and `rnd`.
-/

namespace Boltstore

/-- A Go `error` value, identified with its message; `nil` is `none` of `Option Error`. -/
abbrev Error := String

/-- A Go `[]byte`; each element is used modulo 256 wherever its value matters. -/
abbrev Bytes := List Nat

/-! ## The key-value engine (`bolt`) -/

/-- The contents of the bucket that holds the sessions: key and value pairs,
at most one pair per key being visible to `Bucket.Get`. -/
abbrev Bucket := List (String × Bytes)

/-- The database handle `*bolt.DB`.
`opened` is false once `Close` has run.  `writeFault`, when set, is the error
with which every commit of a read-write transaction fails (a full disk, a
failed sync); the contents are then rolled back.  `remapOnCommit` tells
whether, with the data file as it is, the commit of a read-write transaction
has to grow the memory map; on a file opened with the default options this is
so as soon as the commit needs pages beyond the mapped ones.  The layout of
the file is not followed any further: a commit leaves the flag as it found it. -/
structure DB where
  opened : Bool
  writeFault : Option Error
  bucket : Bucket
  remapOnCommit : Bool
deriving DecidableEq

/-- The error `bolt.ErrDatabaseNotOpen`. -/
def ErrDatabaseNotOpen : Error := "database not open"

/-- The error `bolt.ErrKeyRequired`. -/
def ErrKeyRequired : Error := "key required"

/-- The error `bolt.ErrKeyTooLarge`. -/
def ErrKeyTooLarge : Error := "key too large"

/-- The error `bolt.ErrValueTooLarge`. -/
def ErrValueTooLarge : Error := "value too large"

/-- The constant `bolt.MaxKeySize`. -/
def MaxKeySize : Nat := 32768

/-- The constant `bolt.MaxValueSize`. -/
def MaxValueSize : Nat := (1 <<< 31) - 2

/-- Go's `len` of a string: its length in bytes. -/
def len (s : String) : Nat := s.utf8ByteSize

/-- The lookup `bucket.Get(key)`: the value stored under the key, `none` for Go's `nil`. -/
def Bucket.Get : Bucket → String → Option Bytes
  | [], _ => none
  | (k, v) :: rest, key => if k = key then some v else Bucket.Get rest key

/-- The removal `bucket.Delete(key)`: every pair with that key is dropped; a
key that is absent is not an error. -/
def Bucket.Delete : Bucket → String → Bucket × Option Error
  | [], _ => ([], none)
  | (k, v) :: rest, key =>
    if k = key then Bucket.Delete rest key
    else (((k, v) :: (Bucket.Delete rest key).1), none)

/-- The upsert `bucket.Put(key, value)`, with the checks bolt makes on the
sizes of the key and of the value. -/
def Bucket.Put (b : Bucket) (key : String) (value : Bytes) : Bucket × Option Error :=
  if len key = 0 then (b, some ErrKeyRequired)
  else if len key > MaxKeySize then (b, some ErrKeyTooLarge)
  else if value.length > MaxValueSize then (b, some ErrValueTooLarge)
  else ((key, value) :: (Bucket.Delete b key).1, none)

/-- The read-only transaction `db.View(fn)`.  The Go closure reads the bucket
and assigns to variables it captured; `fn` takes the bucket and returns the
new values of those variables together with the closure's error. -/
def DB.View {σ : Type} (db : DB) (captured : σ) (fn : Bucket → σ × Option Error) :
    σ × Option Error :=
  if db.opened then fn db.bucket else (captured, some ErrDatabaseNotOpen)

/-- The read-write transaction `db.Update(fn)`: the closure's changes are
committed only when the closure returns `nil` and the commit itself succeeds;
otherwise they are rolled back and the error is returned. -/
def DB.Update (db : DB) (fn : Bucket → Bucket × Option Error) : DB × Option Error :=
  if db.opened then
    match fn db.bucket with
    | (_, some e) => (db, some e)
    | (b, none) =>
      match db.writeFault with
      | some e => (db, some e)
      | none => ({ db with bucket := b }, none)
  else (db, some ErrDatabaseNotOpen)

/-- The call `db.Update(fn)` made from inside the closure of `db.View`, by the
goroutine that holds the read-only transaction.  It runs as `DB.Update` does,
except at the commit: remapping the data file needs the lock that the open
read-only transaction holds, and that transaction ends only after this call
has returned.  So a commit that has to remap never returns: `none`. -/
def DB.UpdateInView (db : DB) (fn : Bucket → Bucket × Option Error) :
    Option (DB × Option Error) :=
  if db.opened then
    match fn db.bucket with
    | (_, some e) => some (db, some e)
    | (b, none) =>
      if db.remapOnCommit then none
      else
        match db.writeFault with
        | some e => some (db, some e)
        | none => some ({ db with bucket := b }, none)
  else some (db, some ErrDatabaseNotOpen)

/-! ## The collaborators taken as parameters -/

/-- The field `codecs []securecookie.Codec` of the store, seen through the two
functions that `store.go` applies to it. -/
structure Codecs where
  /-- The call `securecookie.EncodeMulti(name, value, codecs...)`. -/
  EncodeMulti : String → String → Except Error String
  /-- The call `securecookie.DecodeMultiWithMaxAge(name, value, dst, maxAge, codecs...)`,
  given the present content of `dst`: the new content of `dst` and the error. -/
  DecodeMultiWithMaxAge : String → String → String → Int → String × Option Error

/-- The packages `shared`, `gob` and `proto` as used by `store.go`.  `R` is the
record type `protobuf.Session`, `V` the type of `session.Values`. -/
structure Deps (R V : Type) where
  /-- The constant `shared.DefaultMaxAge`. -/
  DefaultMaxAge : Int
  /-- The function `shared.NewSession(values, maxAge)`, run when the clock reads the first argument. -/
  NewSession : Int → Bytes → Int → R
  /-- The function `shared.Session(data)`. -/
  Session : Bytes → Except Error R
  /-- The function `shared.Expired(session)`, run when the clock reads the first argument. -/
  Expired : Int → R → Bool
  /-- The field `Values` of a record. -/
  Values : R → Bytes
  /-- The call `proto.Marshal(record)`. -/
  Marshal : R → Except Error Bytes
  /-- The call `gob.NewEncoder(&buf).Encode(values)` and the bytes left in `buf`. -/
  gobEncode : V → Except Error Bytes
  /-- The call `gob.NewDecoder(bytes.NewBuffer(data)).Decode(&values)`, given the
  present content of `values`: its new content and the error. -/
  gobDecode : Bytes → V → V × Option Error
  /-- The empty map `make(map[interface{}]interface{})`. -/
  emptyValues : V

/-! ## Sessions and the request context -/

/-- The handle `sessions.Session`, with the fields `store.go` uses. -/
structure Session (V : Type) where
  ID : String
  Values : V
  IsNew : Bool
  name : String

/-- The method `session.Name()`. -/
def Session.Name {V : Type} (session : Session V) : String := session.name

/-- The constructor `sessions.NewSession(store, name)`. -/
def sessions.NewSession {R V : Type} (deps : Deps R V) (name : String) : Session V :=
  { ID := "", Values := deps.emptyValues, IsNew := false, name := name }

/-- The part of `echo.Context` that `store.go` uses: the cookies of the request,
the option `CookieOptions().MaxAge`, and the cookies set on the response, the
latest last. -/
structure Context where
  requestCookies : List (String × String)
  MaxAge : Int
  responseCookies : List (String × String)
deriving DecidableEq

/-- The method `ctx.GetCookie(name)`: the value of the request cookie, empty when there is none. -/
def Context.GetCookie (ctx : Context) (name : String) : String :=
  match ctx.requestCookies.find? (fun c => c.1 == name) with
  | some c => c.2
  | none => ""

/-- The call `sessions.SetCookie(ctx, key, value)`. -/
def sessions.SetCookie (ctx : Context) (key value : String) : Context :=
  { ctx with responseCookies := ctx.responseCookies ++ [(key, value)] }

/-- The configuration `Config`: the name of the bucket and the length limit. -/
structure Config where
  BucketName : Bytes
  MaxLength : Int
deriving DecidableEq

/-- The session store `Store`.  The bucket named by `config` is the one
`bucket` of `db`: `New` creates it before any method can run. -/
structure Store where
  codecs : Codecs
  config : Config
  db : DB

/-! ## The methods of `Store` -/

/-- What `Store.load` returns and leaves behind. -/
structure LoadResult (V : Type) where
  /-- The first result, `exists`. -/
  ok : Bool
  /-- The second result, the error. -/
  err : Option Error
  /-- The handle after the call. -/
  session : Session V
  /-- The database after the call. -/
  db : DB
  /-- Whether the call never returns.  When it is true nothing is returned:
  `ok` and `err` are the values the variables hold, `session` and `db` the
  state reached, where the call waits. -/
  blocked : Bool

/-- The variables the closure of `Store.load` assigns to: `exists`,
`session.Values` (inside the handle) and the database it updates; and whether
the closure never returns. -/
structure LoadVars (V : Type) where
  ok : Bool
  session : Session V
  db : DB
  blocked : Bool

/-- The method `Store.load` (store.go, lines 79 to 106).  The `s.db.Update`
of line 96 runs inside the closure of the `s.db.View` of line 82, so it is
`DB.UpdateInView`; when that call never returns, neither does `Store.load`. -/
def Store.load {R V : Type} (deps : Deps R V) (s : Store) (now : Int)
    (session : Session V) : LoadResult V :=
  let r := s.db.View (LoadVars.mk false session s.db false) (fun bucket =>
    let id := session.ID
    match bucket.Get id with
    | none => (LoadVars.mk false session s.db false, none)
    | some data =>
      match deps.Session data with
      | .error err => (LoadVars.mk false session s.db false, some err)
      | .ok sessionData =>
        if deps.Expired now sessionData then
          match s.db.UpdateInView (fun b => b.Delete id) with
          | none => (LoadVars.mk false session s.db true, none)
          | some u => (LoadVars.mk false session u.1 false, u.2)
        else
          let d := deps.gobDecode (deps.Values sessionData) session.Values
          (LoadVars.mk true { session with Values := d.1 } s.db false, d.2))
  { ok := r.1.ok, err := r.2, session := r.1.session, db := r.1.db, blocked := r.1.blocked }

/-- What `Store.New` returns and leaves behind. -/
structure NewResult (V : Type) where
  session : Session V
  err : Option Error
  db : DB
  /-- Whether the call never returns, because its call of `Store.load` does
  not; the other fields then give the state reached, nothing is returned. -/
  blocked : Bool

/-- The method `Store.New` (store.go, lines 35 to 47).  The inner
`ok, err := s.load(session)` declares a second `err` in the scope of the
`if`; the function returns the outer one. -/
def Store.New {R V : Type} (deps : Deps R V) (s : Store) (now : Int) (ctx : Context)
    (name : String) : NewResult V :=
  let session := sessions.NewSession deps name
  let session := { session with IsNew := true }
  let v := ctx.GetCookie name
  if len v > 0 then
    let dec := s.codecs.DecodeMultiWithMaxAge name v session.ID ctx.MaxAge
    let session := { session with ID := dec.1 }
    let err := dec.2
    if err = none then
      let r := Store.load deps s now session
      if r.blocked then
        { session := r.session, err := err, db := r.db, blocked := true }
      else
        let session := { r.session with IsNew := !(r.err == none && r.ok) }
        { session := session, err := err, db := r.db, blocked := false }
    else
      { session := session, err := err, db := s.db, blocked := false }
  else
    { session := session, err := none, db := s.db, blocked := false }

/-- What `Store.Reload` returns and leaves behind. -/
structure ReloadResult (V : Type) where
  err : Option Error
  session : Session V
  db : DB
  /-- Whether the call never returns, because its call of `Store.load` does
  not; the other fields then give the state reached, nothing is returned. -/
  blocked : Bool

/-- The method `Store.Reload` (store.go, lines 49 to 53). -/
def Store.Reload {R V : Type} (deps : Deps R V) (s : Store) (now : Int)
    (session : Session V) : ReloadResult V :=
  let r := Store.load deps s now session
  if r.blocked then
    { err := r.err, session := r.session, db := r.db, blocked := true }
  else
    { err := r.err, session := { r.session with IsNew := !(r.err == none && r.ok) },
      db := r.db, blocked := false }

/-- The method `Store.Remove` (store.go, lines 109 to 113). -/
def Store.Remove (s : Store) (sessionID : String) : DB × Option Error :=
  s.db.Update (fun b => b.Delete sessionID)

/-- The method `Store.delete` (store.go, lines 116 to 118). -/
def Store.delete {V : Type} (s : Store) (session : Session V) : DB × Option Error :=
  s.Remove session.ID

/-- The method `Store.save` (store.go, lines 121 to 140): the database after
the call and the error. -/
def Store.save {R V : Type} (deps : Deps R V) (s : Store) (now : Int) (ctx : Context)
    (session : Session V) : DB × Option Error :=
  match deps.gobEncode session.Values with
  | .error err => (s.db, some err)
  | .ok buf =>
    let maxAge := ctx.MaxAge
    let maxAge := if maxAge = 0 then deps.DefaultMaxAge else maxAge
    match deps.Marshal (deps.NewSession now buf maxAge) with
    | .error err => (s.db, some err)
    | .ok data => s.db.Update (fun b => b.Put session.ID data)

/-! ## `encoding/base32` and `strings.TrimRight` -/

/-- The alphabet of `base32.StdEncoding`. -/
def base32.encodeStd : List Char := "ABCDEFGHIJKLMNOPQRSTUVWXYZ234567".data

/-- The padding character `base32.StdPadding`. -/
def base32.StdPadding : Char := '='

/-- The table lookup `enc.encode[x & 0x1F]`. -/
def base32.encode (x : Nat) : Char := base32.encodeStd.getD (x &&& 0x1F) 'A'

/-- The eight characters for one full group of five bytes, computed as in
`Encoding.Encode` from the two 32-bit words `hi` and `lo`. -/
def base32.encodeQuantum (b0 b1 b2 b3 b4 : Nat) : List Char :=
  let hi := ((b0 % 256) <<< 24 ||| (b1 % 256) <<< 16 ||| (b2 % 256) <<< 8 ||| (b3 % 256)) % 2 ^ 32
  let lo := (hi <<< 8 ||| (b4 % 256)) % 2 ^ 32
  [base32.encode (hi >>> 27), base32.encode (hi >>> 22), base32.encode (hi >>> 17),
   base32.encode (hi >>> 12), base32.encode (hi >>> 7), base32.encode (hi >>> 2),
   base32.encode (lo >>> 5), base32.encode lo]

/-- The method `Encoding.Encode` of `base32.StdEncoding`: full groups of five
bytes give eight characters each; a last group of `n < 5` bytes gives the
first `n * 8 / 5 + 1` characters of the group completed with zero bytes, and
padding up to eight. -/
def base32.Encode : Bytes → List Char
  | b0 :: b1 :: b2 :: b3 :: b4 :: rest =>
    base32.encodeQuantum b0 b1 b2 b3 b4 ++ base32.Encode rest
  | [b0, b1, b2, b3] =>
    (base32.encodeQuantum b0 b1 b2 b3 0).take 7 ++ List.replicate 1 base32.StdPadding
  | [b0, b1, b2] =>
    (base32.encodeQuantum b0 b1 b2 0 0).take 5 ++ List.replicate 3 base32.StdPadding
  | [b0, b1] =>
    (base32.encodeQuantum b0 b1 0 0 0).take 4 ++ List.replicate 4 base32.StdPadding
  | [b0] =>
    (base32.encodeQuantum b0 0 0 0 0).take 2 ++ List.replicate 6 base32.StdPadding
  | [] => []

/-- The method `base32.StdEncoding.EncodeToString`. -/
def base32.EncodeToString (src : Bytes) : String := String.mk (base32.Encode src)

/-- The function `strings.TrimRight(s, cutset)`: `s` without its trailing
characters that occur in `cutset`. -/
def strings.TrimRight (s cutset : String) : String :=
  String.mk (s.data.reverse.dropWhile (fun c => cutset.data.contains c)).reverse

/-- What `Store.Save` returns and leaves behind. -/
structure SaveResult (V : Type) where
  err : Option Error
  /-- The context after the call, with the cookies set on the response. -/
  ctx : Context
  session : Session V
  db : DB

/-- The method `Store.Save` (store.go, lines 56 to 75).  `rnd` is what
`securecookie.GenerateRandomKey(32)` returns when it is called. -/
def Store.Save {R V : Type} (deps : Deps R V) (s : Store) (now : Int) (rnd : Bytes)
    (ctx : Context) (session : Session V) : SaveResult V :=
  if ctx.MaxAge < 0 then
    let d := s.delete session
    let ctx := sessions.SetCookie ctx session.Name ""
    { err := none, ctx := ctx, session := session, db := d.1 }
  else
    let session :=
      if len session.ID = 0 then
        { session with ID := strings.TrimRight (base32.EncodeToString rnd) "=" }
      else session
    let sv := Store.save deps s now ctx session
    match sv.2 with
    | some err => { err := some err, ctx := ctx, session := session, db := sv.1 }
    | none =>
      match s.codecs.EncodeMulti session.Name session.ID with
      | .error err => { err := some err, ctx := ctx, session := session, db := sv.1 }
      | .ok encoded =>
        { err := none, ctx := sessions.SetCookie ctx session.Name encoded,
          session := session, db := sv.1 }

/-! ## Concrete collaborators for the examples -/

/-- A record with a payload and an expiry time, for the examples. -/
structure DemoRecord where
  Values : Bytes
  ExpiresAt : Nat
deriving DecidableEq

/-- Collaborators for the examples.  Values are lists of bytes; the payload
codec writes them as they are, rejects the value `[13]` and does not read the
payload `[99]`.  A record is marshalled as the tag 8, its expiry time and its
payload; bytes of any other shape do not unmarshal. -/
def demoDeps : Deps DemoRecord Bytes where
  DefaultMaxAge := 2592000
  NewSession := fun now values maxAge => { Values := values, ExpiresAt := (now + maxAge).toNat }
  Session := fun data =>
    match data with
    | 8 :: e :: rest => .ok { Values := rest, ExpiresAt := e }
    | _ => .error "proto: bad record"
  Expired := fun now r => decide (0 < r.ExpiresAt ∧ (r.ExpiresAt : Int) ≤ now)
  Values := fun r => r.Values
  Marshal := fun r => .ok (8 :: r.ExpiresAt :: r.Values)
  gobEncode := fun v => if v = [13] then .error "gob: type not registered" else .ok v
  gobDecode := fun data cur => if data = [99] then (cur, some "gob: bad payload") else (data, none)
  emptyValues := []

/-- Codecs for the examples: a token is the identifier after the letter `t`. -/
def demoCodecs : Codecs where
  EncodeMulti := fun _ value => .ok ("t" ++ value)
  DecodeMultiWithMaxAge := fun _ value dst _ =>
    match value.data with
    | 't' :: rest => (String.mk rest, none)
    | _ => (dst, some "securecookie: the value is not valid")

/-- The store without codecs (`str.codecs = nil` in the tests). -/
def noCodecs : Codecs where
  EncodeMulti := fun _ _ => .error "securecookie: no codecs provided"
  DecodeMultiWithMaxAge := fun _ _ dst _ => (dst, some "securecookie: no codecs provided")

/-- An open database without faults that holds the given pairs, with a memory
map that has room for the commits to come (a file opened with a large
`InitialMmapSize`). -/
def openDB (b : Bucket) : DB :=
  { opened := true, writeFault := none, bucket := b, remapOnCommit := false }

/-- A closed database that holds the given pairs. -/
def closedDB (b : Bucket) : DB :=
  { opened := false, writeFault := none, bucket := b, remapOnCommit := false }

/-- An open database without faults that holds the given pairs, on a file
whose next commit has to grow the memory map (a small file opened with the
default options). -/
def tightDB (b : Bucket) : DB :=
  { opened := true, writeFault := none, bucket := b, remapOnCommit := true }

/-- A store for the examples over the given database. -/
def demoStore (db : DB) : Store :=
  { codecs := demoCodecs, config := { BucketName := [], MaxLength := 0 }, db := db }

/-- A request context with at most one cookie, named `test`. -/
def demoCtx (cookie : String) (maxAge : Int) : Context :=
  { requestCookies := if cookie = "" then [] else [("test", cookie)], MaxAge := maxAge,
    responseCookies := [] }

/-- A handle named `test`. -/
def demoSession (id : String) (values : Bytes) : Session Bytes :=
  { ID := id, Values := values, IsNew := true, name := "test" }

/-! ## Lemmas on the engine -/

theorem Bucket.Delete_snd (b : Bucket) (key : String) : (Bucket.Delete b key).2 = none := by
  induction b with
  | nil => rfl
  | cons p rest ih =>
    obtain ⟨k, v⟩ := p
    by_cases h : k = key <;> simp [Bucket.Delete, h, ih]

theorem Bucket.Get_Delete_self (b : Bucket) (key : String) :
    Bucket.Get (Bucket.Delete b key).1 key = none := by
  induction b with
  | nil => rfl
  | cons p rest ih =>
    obtain ⟨k, v⟩ := p
    by_cases h : k = key <;> simp [Bucket.Delete, Bucket.Get, h, ih]

theorem Bucket.Get_Delete_other (b : Bucket) (key other : String) (hne : other ≠ key) :
    Bucket.Get (Bucket.Delete b key).1 other = Bucket.Get b other := by
  induction b with
  | nil => rfl
  | cons p rest ih =>
    obtain ⟨k, v⟩ := p
    by_cases h : k = key
    · have h2 : ¬ k = other := fun h3 => hne (h3.symm.trans h)
      rw [Bucket.Delete, if_pos h, Bucket.Get, if_neg h2]
      exact ih
    · rw [Bucket.Delete, if_neg h]
      by_cases h2 : k = other
      · rw [Bucket.Get, if_pos h2, Bucket.Get, if_pos h2]
      · rw [Bucket.Get, if_neg h2, Bucket.Get, if_neg h2]
        exact ih

theorem DB.Update_Delete_ok (db : DB) (key : String) (ho : db.opened = true)
    (hw : db.writeFault = none) :
    db.Update (fun b => b.Delete key) = ({ db with bucket := (db.bucket.Delete key).1 }, none) := by
  have h2 := Bucket.Delete_snd db.bucket key
  unfold DB.Update
  rw [if_pos ho]
  generalize hd : Bucket.Delete db.bucket key = d at h2
  obtain ⟨b2, e2⟩ := d
  simp only at h2
  subst h2
  simp [hw, hd]

theorem DB.Update_closed (db : DB) (fn : Bucket → Bucket × Option Error)
    (ho : db.opened = false) : db.Update fn = (db, some ErrDatabaseNotOpen) := by
  simp [DB.Update, ho]

theorem DB.Update_fault (db : DB) (key : String) (e : Error) (ho : db.opened = true)
    (hw : db.writeFault = some e) :
    db.Update (fun b => b.Delete key) = (db, some e) := by
  have h2 := Bucket.Delete_snd db.bucket key
  unfold DB.Update
  rw [if_pos ho]
  generalize hd : Bucket.Delete db.bucket key = d at h2
  obtain ⟨b2, e2⟩ := d
  simp only at h2
  subst h2
  simp [hw, hd]

/-- A failed update leaves the database as it was. -/
theorem DB.Update_err (db : DB) (fn : Bucket → Bucket × Option Error) (e : Error)
    (h : (db.Update fn).2 = some e) : (db.Update fn).1 = db := by
  unfold DB.Update at h ⊢
  by_cases ho : db.opened = true
  · rw [if_pos ho] at h ⊢
    generalize fn db.bucket = d at h ⊢
    obtain ⟨b2, e2⟩ := d
    cases e2 with
    | some e3 => rfl
    | none =>
      cases hw : db.writeFault with
      | some e4 => simp [hw]
      | none => simp [hw] at h
  · rw [if_neg ho]

/-! ## Lemmas on `Store.load`, one for each path through it -/

theorem Store.load_closed {R V : Type} (deps : Deps R V) (s : Store) (now : Int)
    (session : Session V) (ho : s.db.opened = false) :
    Store.load deps s now session
      = { ok := false, err := some ErrDatabaseNotOpen, session := session, db := s.db,
          blocked := false } := by
  simp [Store.load, DB.View, ho]

theorem Store.load_absent {R V : Type} (deps : Deps R V) (s : Store) (now : Int)
    (session : Session V) (ho : s.db.opened = true)
    (hget : s.db.bucket.Get session.ID = none) :
    Store.load deps s now session
      = { ok := false, err := none, session := session, db := s.db, blocked := false } := by
  simp [Store.load, DB.View, ho, hget]

theorem Store.load_corrupt {R V : Type} (deps : Deps R V) (s : Store) (now : Int)
    (session : Session V) (data : Bytes) (e : Error) (ho : s.db.opened = true)
    (hget : s.db.bucket.Get session.ID = some data) (hdec : deps.Session data = .error e) :
    Store.load deps s now session
      = { ok := false, err := some e, session := session, db := s.db, blocked := false } := by
  simp [Store.load, DB.View, ho, hget, hdec]

/-- The expired path when the inner read-write transaction returns. -/
theorem Store.load_expired {R V : Type} (deps : Deps R V) (s : Store) (now : Int)
    (session : Session V) (data : Bytes) (r : R) (u : DB × Option Error)
    (ho : s.db.opened = true)
    (hget : s.db.bucket.Get session.ID = some data) (hdec : deps.Session data = .ok r)
    (hexp : deps.Expired now r = true)
    (hu : s.db.UpdateInView (fun b => b.Delete session.ID) = some u) :
    Store.load deps s now session
      = { ok := false, err := u.2, session := session, db := u.1, blocked := false } := by
  simp [Store.load, DB.View, ho, hget, hdec, hexp, hu]

/-- The expired path when the inner read-write transaction never returns:
`Store.load` does not return either, and nothing has changed. -/
theorem Store.load_expired_blocks {R V : Type} (deps : Deps R V) (s : Store) (now : Int)
    (session : Session V) (data : Bytes) (r : R) (ho : s.db.opened = true)
    (hget : s.db.bucket.Get session.ID = some data) (hdec : deps.Session data = .ok r)
    (hexp : deps.Expired now r = true)
    (hu : s.db.UpdateInView (fun b => b.Delete session.ID) = none) :
    Store.load deps s now session
      = { ok := false, err := none, session := session, db := s.db, blocked := true } := by
  simp [Store.load, DB.View, ho, hget, hdec, hexp, hu]

theorem Store.load_fresh {R V : Type} (deps : Deps R V) (s : Store) (now : Int)
    (session : Session V) (data : Bytes) (r : R) (ho : s.db.opened = true)
    (hget : s.db.bucket.Get session.ID = some data) (hdec : deps.Session data = .ok r)
    (hexp : deps.Expired now r = false) :
    Store.load deps s now session
      = { ok := true, err := (deps.gobDecode (deps.Values r) session.Values).2,
          session := { session with Values := (deps.gobDecode (deps.Values r) session.Values).1 },
          db := s.db, blocked := false } := by
  simp [Store.load, DB.View, ho, hget, hdec, hexp]

/-- The method `Store.load` never assigns to the fields `ID`, `IsNew` and `name`. -/
theorem Store.load_session_fields {R V : Type} (deps : Deps R V) (s : Store) (now : Int)
    (session : Session V) :
    (Store.load deps s now session).session.ID = session.ID
      ∧ (Store.load deps s now session).session.IsNew = session.IsNew
      ∧ (Store.load deps s now session).session.name = session.name := by
  cases ho : s.db.opened with
  | false => rw [Store.load_closed deps s now session ho]; exact ⟨rfl, rfl, rfl⟩
  | true =>
    cases hget : s.db.bucket.Get session.ID with
    | none => rw [Store.load_absent deps s now session ho hget]; exact ⟨rfl, rfl, rfl⟩
    | some data =>
      cases hdec : deps.Session data with
      | error e =>
        rw [Store.load_corrupt deps s now session data e ho hget hdec]; exact ⟨rfl, rfl, rfl⟩
      | ok r =>
        cases hexp : deps.Expired now r with
        | true =>
          cases hu : s.db.UpdateInView (fun b => b.Delete session.ID) with
          | none =>
            rw [Store.load_expired_blocks deps s now session data r ho hget hdec hexp hu]
            exact ⟨rfl, rfl, rfl⟩
          | some u =>
            rw [Store.load_expired deps s now session data r u ho hget hdec hexp hu]
            exact ⟨rfl, rfl, rfl⟩
        | false =>
          rw [Store.load_fresh deps s now session data r ho hget hdec hexp]
          exact ⟨rfl, rfl, rfl⟩

/-- A call of `Store.load` that never returns has set no error. -/
theorem Store.load_blocked_err {R V : Type} (deps : Deps R V) (s : Store) (now : Int)
    (session : Session V) (hb : (Store.load deps s now session).blocked = true) :
    (Store.load deps s now session).err = none := by
  cases ho : s.db.opened with
  | false => rw [Store.load_closed deps s now session ho] at hb; cases hb
  | true =>
    cases hget : s.db.bucket.Get session.ID with
    | none => rw [Store.load_absent deps s now session ho hget] at hb; cases hb
    | some data =>
      cases hdec : deps.Session data with
      | error e =>
        rw [Store.load_corrupt deps s now session data e ho hget hdec] at hb; cases hb
      | ok r =>
        cases hexp : deps.Expired now r with
        | true =>
          cases hu : s.db.UpdateInView (fun b => b.Delete session.ID) with
          | none =>
            rw [Store.load_expired_blocks deps s now session data r ho hget hdec hexp hu]
          | some u =>
            rw [Store.load_expired deps s now session data r u ho hget hdec hexp hu] at hb
            cases hb
        | false =>
          rw [Store.load_fresh deps s now session data r ho hget hdec hexp] at hb; cases hb

/-- An inner read-write transaction whose commit has to remap never returns. -/
theorem DB.UpdateInView_Delete_blocks (db : DB) (key : String) (ho : db.opened = true)
    (hr : db.remapOnCommit = true) : db.UpdateInView (fun b => b.Delete key) = none := by
  have h2 := Bucket.Delete_snd db.bucket key
  unfold DB.UpdateInView
  rw [if_pos ho]
  generalize hd : Bucket.Delete db.bucket key = d at h2
  obtain ⟨b2, e2⟩ := d
  simp only at h2
  subst h2
  simp [hd, hr]

/-- A successful update has committed what the closure wrote, on an open
database without a fault. -/
theorem DB.Update_none (db : DB) (fn : Bucket → Bucket × Option Error)
    (h : (db.Update fn).2 = none) :
    (db.Update fn).1 = { db with bucket := (fn db.bucket).1 } ∧ (fn db.bucket).2 = none
      ∧ db.opened = true ∧ db.writeFault = none := by
  unfold DB.Update at h ⊢
  by_cases ho : db.opened = true
  · rw [if_pos ho] at h ⊢
    generalize fn db.bucket = d at h ⊢
    obtain ⟨b2, e2⟩ := d
    cases e2 with
    | some e3 => simp at h
    | none =>
      cases hw : db.writeFault with
      | some e4 => simp [hw] at h
      | none => simp [ho]
  · rw [if_neg ho] at h
    simp at h

/-- The result of `Store.New` when the request carries a cookie that decodes
and the call of `Store.load` returns. -/
theorem Store.New_decoded {R V : Type} (deps : Deps R V) (s : Store) (now : Int)
    (ctx : Context) (name : String) (hcookie : 0 < len (ctx.GetCookie name))
    (hdec : (s.codecs.DecodeMultiWithMaxAge name (ctx.GetCookie name) "" ctx.MaxAge).2 = none)
    (hnb : (Store.load deps s now
      { ID := (s.codecs.DecodeMultiWithMaxAge name (ctx.GetCookie name) "" ctx.MaxAge).1,
        Values := deps.emptyValues, IsNew := true, name := name }).blocked = false) :
    Store.New deps s now ctx name
      = { session :=
            { (Store.load deps s now
                { ID := (s.codecs.DecodeMultiWithMaxAge name (ctx.GetCookie name) "" ctx.MaxAge).1,
                  Values := deps.emptyValues, IsNew := true, name := name }).session with
              IsNew := !((Store.load deps s now
                { ID := (s.codecs.DecodeMultiWithMaxAge name (ctx.GetCookie name) "" ctx.MaxAge).1,
                  Values := deps.emptyValues, IsNew := true, name := name }).err == none
                && (Store.load deps s now
                { ID := (s.codecs.DecodeMultiWithMaxAge name (ctx.GetCookie name) "" ctx.MaxAge).1,
                  Values := deps.emptyValues, IsNew := true, name := name }).ok) },
          err := none,
          db := (Store.load deps s now
                { ID := (s.codecs.DecodeMultiWithMaxAge name (ctx.GetCookie name) "" ctx.MaxAge).1,
                  Values := deps.emptyValues, IsNew := true, name := name }).db,
          blocked := false } := by
  simp [Store.New, sessions.NewSession, hcookie, hdec, hnb]

/-! ## The claims -/

/-- C1 (the code departs from the claim): when the cookie decodes and
`Store.load` fails on the decoded id with an error `e`, as it does on a
malformed record, `Store.New` returns a nil error and a handle with
`IsNew == true`; the error `e` is not returned. -/
theorem C1_New_drops_load_error {R V : Type} (deps : Deps R V) (s : Store) (now : Int)
    (ctx : Context) (name : String) (e : Error)
    (hcookie : 0 < len (ctx.GetCookie name))
    (hdec : (s.codecs.DecodeMultiWithMaxAge name (ctx.GetCookie name) "" ctx.MaxAge).2 = none)
    (hload : (Store.load deps s now
      { ID := (s.codecs.DecodeMultiWithMaxAge name (ctx.GetCookie name) "" ctx.MaxAge).1,
        Values := deps.emptyValues, IsNew := true, name := name }).err = some e) :
    (Store.New deps s now ctx name).err = none
      ∧ (Store.New deps s now ctx name).err ≠ some e
      ∧ (Store.New deps s now ctx name).session.IsNew = true
      ∧ (Store.New deps s now ctx name).blocked = false := by
  have hnb : (Store.load deps s now
      { ID := (s.codecs.DecodeMultiWithMaxAge name (ctx.GetCookie name) "" ctx.MaxAge).1,
        Values := deps.emptyValues, IsNew := true, name := name }).blocked = false := by
    cases hb : (Store.load deps s now
      { ID := (s.codecs.DecodeMultiWithMaxAge name (ctx.GetCookie name) "" ctx.MaxAge).1,
        Values := deps.emptyValues, IsNew := true, name := name }).blocked with
    | false => rfl
    | true =>
      rw [Store.load_blocked_err deps s now _ hb] at hload
      cases hload
  rw [Store.New_decoded deps s now ctx name hcookie hdec hnb]
  simp [hload]

/-- C1 at the input of the test `TestStore_load`: the bytes of "test" are
stored under the id "x" and the cookie decodes to "x".  `Store.load` returns
the decode error, `Store.New` returns nil. -/
theorem C1_New_drops_load_error_witness :
    (Store.load demoDeps (demoStore (openDB [("x", [116, 101, 115, 116])])) 0
        (demoSession "x" [])).err = some "proto: bad record"
      ∧ (Store.New demoDeps (demoStore (openDB [("x", [116, 101, 115, 116])])) 0
        (demoCtx "tx" 1024) "test").err = none
      ∧ (Store.New demoDeps (demoStore (openDB [("x", [116, 101, 115, 116])])) 0
        (demoCtx "tx" 1024) "test").session.IsNew = true :=
  ⟨by decide,
   (C1_New_drops_load_error demoDeps (demoStore (openDB [("x", [116, 101, 115, 116])])) 0
      (demoCtx "tx" 1024) "test" "proto: bad record" (by decide) (by decide) (by decide)).1,
   (C1_New_drops_load_error demoDeps (demoStore (openDB [("x", [116, 101, 115, 116])])) 0
      (demoCtx "tx" 1024) "test" "proto: bad record" (by decide) (by decide) (by decide)).2.2.1⟩

/-- On a data file whose next commit has to remap, `Store.load` on an expired
record never returns, and the record stays where it is: the read-write
transaction of line 96 waits for the read-only transaction of line 82. -/
theorem Store.load_expired_never_returns {R V : Type} (deps : Deps R V) (s : Store)
    (now : Int) (session : Session V) (data : Bytes) (r : R)
    (ho : s.db.opened = true) (hr : s.db.remapOnCommit = true)
    (hget : s.db.bucket.Get session.ID = some data) (hdec : deps.Session data = .ok r)
    (hexp : deps.Expired now r = true) :
    (Store.load deps s now session).blocked = true
      ∧ (Store.load deps s now session).db = s.db
      ∧ (Store.Reload deps s now session).blocked = true := by
  have hu := DB.UpdateInView_Delete_blocks s.db session.ID ho hr
  have hl := Store.load_expired_blocks deps s now session data r ho hget hdec hexp hu
  refine ⟨by rw [hl], by rw [hl], ?_⟩
  simp [Store.Reload, hl]

/-- The same at a concrete input: the record under "a" expired at time 5 and
is read at time 9 on a small file opened with the default options.  The call
never returns and the record is still there. -/
theorem Store.load_expired_never_returns_example :
    (Store.load demoDeps (demoStore (tightDB [("a", [8, 5, 1])])) 9
        (demoSession "a" [7])).blocked = true
      ∧ (Store.load demoDeps (demoStore (tightDB [("a", [8, 5, 1])])) 9
        (demoSession "a" [7])).db.bucket.Get "a" = some [8, 5, 1] := by
  decide

/-- C4: when the id of the handle maps to bytes on which `shared.Session`
fails with `e`, `Store.load` returns, and returns `(false, e)`, so never `(false, nil)`,
and leaves the handle and the database exactly as they were, the bytes still
stored under the id; when the record decodes, is not expired, and only the
decoding of its payload fails with `e`, `Store.load` returns `e` and the
database is again exactly as it was. -/
theorem C4_load_reports_corrupt_record {R V : Type} (deps : Deps R V) (s : Store)
    (now : Int) (session : Session V) (data : Bytes)
    (ho : s.db.opened = true)
    (hget : s.db.bucket.Get session.ID = some data) :
    (∀ e : Error, deps.Session data = .error e →
        (Store.load deps s now session).ok = false
          ∧ (Store.load deps s now session).err = some e
          ∧ (Store.load deps s now session).err ≠ none
          ∧ (Store.load deps s now session).session = session
          ∧ (Store.load deps s now session).db = s.db
          ∧ (Store.load deps s now session).db.bucket.Get session.ID = some data
          ∧ (Store.load deps s now session).blocked = false)
      ∧ (∀ (r : R) (e : Error), deps.Session data = .ok r → deps.Expired now r = false →
          (deps.gobDecode (deps.Values r) session.Values).2 = some e →
        (Store.load deps s now session).err = some e
          ∧ (Store.load deps s now session).db = s.db
          ∧ (Store.load deps s now session).db.bucket.Get session.ID = some data
          ∧ (Store.load deps s now session).blocked = false) := by
  constructor
  · intro e hdec
    rw [Store.load_corrupt deps s now session data e ho hget hdec]
    exact ⟨rfl, rfl, by simp, rfl, rfl, hget, rfl⟩
  · intro r e hdec hexp hgob
    rw [Store.load_fresh deps s now session data r ho hget hdec hexp]
    exact ⟨hgob, rfl, hget, rfl⟩

/-- C4 at concrete inputs: the bytes of "test" under "x" (the record decoder
fails), and a fresh record under "y" whose payload `[99]` does not decode. -/
theorem C4_load_reports_corrupt_record_witness :
    ((Store.load demoDeps (demoStore (openDB [("x", [116, 101, 115, 116])])) 0
        (demoSession "x" [])).err = some "proto: bad record"
      ∧ (Store.load demoDeps (demoStore (openDB [("x", [116, 101, 115, 116])])) 0
        (demoSession "x" [])).db = openDB [("x", [116, 101, 115, 116])])
      ∧ ((Store.load demoDeps (demoStore (openDB [("y", [8, 50, 99])])) 9
        (demoSession "y" [])).err = some "gob: bad payload"
      ∧ (Store.load demoDeps (demoStore (openDB [("y", [8, 50, 99])])) 9
        (demoSession "y" [])).db = openDB [("y", [8, 50, 99])]) :=
  have h1 := (C4_load_reports_corrupt_record demoDeps
    (demoStore (openDB [("x", [116, 101, 115, 116])])) 0 (demoSession "x" [])
    [116, 101, 115, 116] (by decide) (by decide)).1 "proto: bad record" rfl
  have h2 := (C4_load_reports_corrupt_record demoDeps
    (demoStore (openDB [("y", [8, 50, 99])])) 9 (demoSession "y" [])
    [8, 50, 99] (by decide) (by decide)).2 { Values := [99], ExpiresAt := 50 }
    "gob: bad payload" rfl (by decide) (by decide)
  ⟨⟨h1.2.1, h1.2.2.2.2.1⟩, ⟨h2.1, h2.2.1⟩⟩

/-- C5: `Store.New` returns a handle with `IsNew == true` and leaves the
database as it was (a) with a nil error when the request has no cookie, or an
empty one, for the name, (b) with the token decode error when the cookie does
not decode, (c) with a nil error when the cookie decodes to an id without a
record in the bucket; and `Store.load` on an id without a record in the bucket
of an open database returns `(false, nil)`. -/
theorem C5_New_session_identity {R V : Type} (deps : Deps R V) (s : Store) (now : Int)
    (ctx : Context) (name : String) :
    (len (ctx.GetCookie name) = 0 →
        (Store.New deps s now ctx name).session.IsNew = true
          ∧ (Store.New deps s now ctx name).err = none
          ∧ (Store.New deps s now ctx name).db = s.db
          ∧ (Store.New deps s now ctx name).blocked = false)
      ∧ (∀ e : Error, 0 < len (ctx.GetCookie name) →
          (s.codecs.DecodeMultiWithMaxAge name (ctx.GetCookie name) "" ctx.MaxAge).2 = some e →
        (Store.New deps s now ctx name).session.IsNew = true
          ∧ (Store.New deps s now ctx name).err = some e
          ∧ (Store.New deps s now ctx name).db = s.db
          ∧ (Store.New deps s now ctx name).blocked = false)
      ∧ (0 < len (ctx.GetCookie name) →
          (s.codecs.DecodeMultiWithMaxAge name (ctx.GetCookie name) "" ctx.MaxAge).2 = none →
          s.db.bucket.Get
            (s.codecs.DecodeMultiWithMaxAge name (ctx.GetCookie name) "" ctx.MaxAge).1 = none →
        (Store.New deps s now ctx name).session.IsNew = true
          ∧ (Store.New deps s now ctx name).err = none
          ∧ (Store.New deps s now ctx name).db = s.db
          ∧ (Store.New deps s now ctx name).blocked = false)
      ∧ (∀ session : Session V, s.db.opened = true → s.db.bucket.Get session.ID = none →
        (Store.load deps s now session).ok = false
          ∧ (Store.load deps s now session).err = none
          ∧ (Store.load deps s now session).db = s.db
          ∧ (Store.load deps s now session).blocked = false) := by
  refine ⟨?_, ?_, ?_, ?_⟩
  · intro h0
    simp [Store.New, sessions.NewSession, h0]
  · intro e hpos hdec
    simp [Store.New, sessions.NewSession, hpos, hdec]
  · intro hpos hdec hget
    cases ho : s.db.opened with
    | false =>
      rw [Store.New_decoded deps s now ctx name hpos hdec
        (by rw [Store.load_closed deps s now _ ho])]
      rw [Store.load_closed deps s now _ ho]
      simp
    | true =>
      rw [Store.New_decoded deps s now ctx name hpos hdec
        (by rw [Store.load_absent deps s now _ ho hget])]
      rw [Store.load_absent deps s now _ ho hget]
      simp
  · intro session ho hget
    rw [Store.load_absent deps s now session ho hget]
    exact ⟨rfl, rfl, rfl, rfl⟩

/-- C5 at concrete inputs: no cookie; a cookie that does not decode; a cookie
that decodes to the id "1", which has no record (the test `TestStore_New`). -/
theorem C5_New_session_identity_witness :
    ((Store.New demoDeps (demoStore (openDB [("x", [8, 50, 1])])) 9
        (demoCtx "" 1024) "test").session.IsNew = true
      ∧ (Store.New demoDeps (demoStore (openDB [("x", [8, 50, 1])])) 9
        (demoCtx "" 1024) "test").err = none)
      ∧ ((Store.New demoDeps (demoStore (openDB [("x", [8, 50, 1])])) 9
        (demoCtx "bad" 1024) "test").session.IsNew = true
      ∧ (Store.New demoDeps (demoStore (openDB [("x", [8, 50, 1])])) 9
        (demoCtx "bad" 1024) "test").err = some "securecookie: the value is not valid")
      ∧ ((Store.New demoDeps (demoStore (openDB [("x", [8, 50, 1])])) 9
        (demoCtx "t1" 1024) "test").session.IsNew = true
      ∧ (Store.New demoDeps (demoStore (openDB [("x", [8, 50, 1])])) 9
        (demoCtx "t1" 1024) "test").db = openDB [("x", [8, 50, 1])]) :=
  have h1 := (C5_New_session_identity demoDeps (demoStore (openDB [("x", [8, 50, 1])])) 9
    (demoCtx "" 1024) "test").1 (by decide)
  have h2 := (C5_New_session_identity demoDeps (demoStore (openDB [("x", [8, 50, 1])])) 9
    (demoCtx "bad" 1024) "test").2.1 "securecookie: the value is not valid" (by decide)
    (by decide)
  have h3 := (C5_New_session_identity demoDeps (demoStore (openDB [("x", [8, 50, 1])])) 9
    (demoCtx "t1" 1024) "test").2.2.1 (by decide) (by decide) (by decide)
  ⟨⟨h1.1, h1.2.1⟩, ⟨h2.1, h2.2.1⟩, ⟨h3.1, h3.2.2.1⟩⟩

/-! ## Lemmas on `Store.Save`, one for each way out of it -/

theorem Store.Save_negative {R V : Type} (deps : Deps R V) (s : Store) (now : Int)
    (rnd : Bytes) (ctx : Context) (session : Session V) (hm : ctx.MaxAge < 0) :
    Store.Save deps s now rnd ctx session
      = { err := none, ctx := sessions.SetCookie ctx session.Name "", session := session,
          db := (s.db.Update (fun b => b.Delete session.ID)).1 } := by
  simp [Store.Save, Store.delete, Store.Remove, hm]

theorem Store.Save_session {R V : Type} (deps : Deps R V) (s : Store) (now : Int)
    (rnd : Bytes) (ctx : Context) (session : Session V) (hm : 0 ≤ ctx.MaxAge) :
    (Store.Save deps s now rnd ctx session).session
      = if len session.ID = 0 then
          { session with ID := strings.TrimRight (base32.EncodeToString rnd) "=" }
        else session := by
  unfold Store.Save
  rw [if_neg (not_lt.mpr hm)]
  simp only []
  split
  · rfl
  · split <;> rfl

theorem Store.Save_save_err {R V : Type} (deps : Deps R V) (s : Store) (now : Int)
    (rnd : Bytes) (ctx : Context) (session : Session V) (e : Error) (hm : 0 ≤ ctx.MaxAge)
    (h : (Store.save deps s now ctx (Store.Save deps s now rnd ctx session).session).2
      = some e) :
    (Store.Save deps s now rnd ctx session).err = some e
      ∧ (Store.Save deps s now rnd ctx session).ctx = ctx
      ∧ (Store.Save deps s now rnd ctx session).db
          = (Store.save deps s now ctx (Store.Save deps s now rnd ctx session).session).1 := by
  rw [Store.Save_session deps s now rnd ctx session hm] at h ⊢
  unfold Store.Save
  rw [if_neg (not_lt.mpr hm)]
  simp only []
  rw [h]
  exact ⟨rfl, rfl, rfl⟩

theorem Store.Save_encode_err {R V : Type} (deps : Deps R V) (s : Store) (now : Int)
    (rnd : Bytes) (ctx : Context) (session : Session V) (e : Error) (hm : 0 ≤ ctx.MaxAge)
    (h : (Store.save deps s now ctx (Store.Save deps s now rnd ctx session).session).2 = none)
    (henc : s.codecs.EncodeMulti session.Name
      (Store.Save deps s now rnd ctx session).session.ID = .error e) :
    (Store.Save deps s now rnd ctx session).err = some e
      ∧ (Store.Save deps s now rnd ctx session).ctx = ctx
      ∧ (Store.Save deps s now rnd ctx session).db
          = (Store.save deps s now ctx (Store.Save deps s now rnd ctx session).session).1 := by
  rw [Store.Save_session deps s now rnd ctx session hm] at h henc ⊢
  unfold Store.Save
  rw [if_neg (not_lt.mpr hm)]
  simp only []
  rw [h]
  have hn : (if len session.ID = 0 then
      { session with ID := strings.TrimRight (base32.EncodeToString rnd) "=" }
      else session).Name = session.Name := by
    split <;> rfl
  simp [hn, henc]

theorem Store.Save_ok {R V : Type} (deps : Deps R V) (s : Store) (now : Int)
    (rnd : Bytes) (ctx : Context) (session : Session V) (encoded : String)
    (hm : 0 ≤ ctx.MaxAge)
    (h : (Store.save deps s now ctx (Store.Save deps s now rnd ctx session).session).2 = none)
    (henc : s.codecs.EncodeMulti session.Name
      (Store.Save deps s now rnd ctx session).session.ID = .ok encoded) :
    (Store.Save deps s now rnd ctx session).err = none
      ∧ (Store.Save deps s now rnd ctx session).ctx
          = sessions.SetCookie ctx session.Name encoded
      ∧ (Store.Save deps s now rnd ctx session).db
          = (Store.save deps s now ctx (Store.Save deps s now rnd ctx session).session).1 := by
  rw [Store.Save_session deps s now rnd ctx session hm] at h henc ⊢
  unfold Store.Save
  rw [if_neg (not_lt.mpr hm)]
  simp only []
  rw [h]
  have hn : (if len session.ID = 0 then
      { session with ID := strings.TrimRight (base32.EncodeToString rnd) "=" }
      else session).Name = session.Name := by
    split <;> rfl
  simp [hn, henc]

theorem Store.Save_session_Values {R V : Type} (deps : Deps R V) (s : Store) (now : Int)
    (rnd : Bytes) (ctx : Context) (session : Session V) (hm : 0 ≤ ctx.MaxAge) :
    (Store.Save deps s now rnd ctx session).session.Values = session.Values := by
  rw [Store.Save_session deps s now rnd ctx session hm]
  split <;> rfl

/-- After a delete, attempted or done, each key has its old value or none. -/
theorem DB.Update_Delete_get (db : DB) (key k : String) :
    (db.Update (fun b => b.Delete key)).1.bucket.Get k = none
      ∨ (db.Update (fun b => b.Delete key)).1.bucket.Get k = db.bucket.Get k := by
  cases h : (db.Update (fun b => b.Delete key)).2 with
  | some e => right; rw [DB.Update_err db _ e h]
  | none =>
    rw [(DB.Update_none db _ h).1]
    by_cases hk : k = key
    · left; rw [hk]; exact Bucket.Get_Delete_self db.bucket key
    · right; exact Bucket.Get_Delete_other db.bucket key k hk

/-- After a delete, attempted or done, every other key has its old value. -/
theorem DB.Update_Delete_other (db : DB) (key other : String) (hne : other ≠ key) :
    (db.Update (fun b => b.Delete key)).1.bucket.Get other = db.bucket.Get other := by
  cases h : (db.Update (fun b => b.Delete key)).2 with
  | some e => rw [DB.Update_err db _ e h]
  | none =>
    rw [(DB.Update_none db _ h).1]
    exact Bucket.Get_Delete_other db.bucket key other hne

/-- C6 as stated fails: on a closed database the delete fails, its error is
dropped, and after `Store.Save` with max-age -1 the record is still stored
under the id of the handle. -/
theorem C6_counterexample :
    (demoCtx "" (-1)).MaxAge < 0
      ∧ (closedDB [("a", [8, 50, 1])]).bucket.Get "a" = some [8, 50, 1]
      ∧ (Store.Save demoDeps (demoStore (closedDB [("a", [8, 50, 1])])) 9 [] (demoCtx "" (-1))
          (demoSession "a" [])).db.bucket.Get "a" = some [8, 50, 1]
      ∧ ¬ (Store.Save demoDeps (demoStore (closedDB [("a", [8, 50, 1])])) 9 []
          (demoCtx "" (-1)) (demoSession "a" [])).db.bucket.Get "a" = none := by
  decide

/-- C6 (amended): with a negative max-age, in every state of the store,
`Store.Save` writes no record (each id has its old record or none), leaves the
record of every other id unchanged, sets the outgoing cookie of the session's
name to the empty string and leaves the handle, its `ID` included, as it was;
and when the store's delete of the handle's id succeeds, no record is left
under that id and `Store.Save` returns nil. -/
theorem C6_Save_negative_max_age_deletes {R V : Type} (deps : Deps R V) (s : Store)
    (now : Int) (rnd : Bytes) (ctx : Context) (session : Session V)
    (hm : ctx.MaxAge < 0) :
    (∀ k : String,
        (Store.Save deps s now rnd ctx session).db.bucket.Get k = none
          ∨ (Store.Save deps s now rnd ctx session).db.bucket.Get k = s.db.bucket.Get k)
      ∧ (∀ other : String, other ≠ session.ID →
        (Store.Save deps s now rnd ctx session).db.bucket.Get other = s.db.bucket.Get other)
      ∧ (Store.Save deps s now rnd ctx session).ctx.responseCookies
          = ctx.responseCookies ++ [(session.Name, "")]
      ∧ (Store.Save deps s now rnd ctx session).session = session
      ∧ (Store.Save deps s now rnd ctx session).session.ID = session.ID
      ∧ ((Store.delete s session).2 = none →
          (Store.Save deps s now rnd ctx session).db.bucket.Get session.ID = none
            ∧ (Store.Save deps s now rnd ctx session).err = none) := by
  rw [Store.Save_negative deps s now rnd ctx session hm]
  refine ⟨?_, ?_, rfl, rfl, rfl, ?_⟩
  · intro k
    exact DB.Update_Delete_get s.db session.ID k
  · intro other hne
    exact DB.Update_Delete_other s.db session.ID other hne
  · intro hdel
    have hu := DB.Update_none s.db (fun b => b.Delete session.ID) hdel
    refine ⟨?_, rfl⟩
    show (s.db.Update (fun b => b.Delete session.ID)).1.bucket.Get session.ID = none
    rw [hu.1]
    exact Bucket.Get_Delete_self s.db.bucket session.ID

/-- C6 (amended) at a concrete input: records under "a" and "b", the handle has
id "a", max-age -1, the database is open. -/
theorem C6_Save_negative_max_age_deletes_witness :
    (Store.Save demoDeps (demoStore (openDB [("a", [8, 50, 1]), ("b", [8, 50, 2])])) 9 []
        (demoCtx "ta" (-1)) (demoSession "a" [])).db.bucket.Get "a" = none
      ∧ (Store.Save demoDeps (demoStore (openDB [("a", [8, 50, 1]), ("b", [8, 50, 2])])) 9 []
        (demoCtx "ta" (-1)) (demoSession "a" [])).err = none
      ∧ (Store.Save demoDeps (demoStore (openDB [("a", [8, 50, 1]), ("b", [8, 50, 2])])) 9 []
        (demoCtx "ta" (-1)) (demoSession "a" [])).db.bucket.Get "b" = some [8, 50, 2]
      ∧ (Store.Save demoDeps (demoStore (openDB [("a", [8, 50, 1]), ("b", [8, 50, 2])])) 9 []
        (demoCtx "ta" (-1)) (demoSession "a" [])).ctx.responseCookies = [("test", "")] :=
  have h := C6_Save_negative_max_age_deletes demoDeps
    (demoStore (openDB [("a", [8, 50, 1]), ("b", [8, 50, 2])])) 9 [] (demoCtx "ta" (-1))
    (demoSession "a" []) (by decide)
  ⟨(h.2.2.2.2.2 (by decide)).1, (h.2.2.2.2.2 (by decide)).2,
   (h.2.1 "b" (by decide)).trans (by decide), h.2.2.1⟩

/-- C7 (the code departs from the claim): when the store's delete of the
handle's id fails with `e`, `Store.delete` and `Store.Remove` return `e` as it
is, but `Store.Save` with a negative max-age returns nil: the result of
`s.delete(session)` is dropped. -/
theorem C7_Save_drops_delete_error {R V : Type} (deps : Deps R V) (s : Store)
    (now : Int) (rnd : Bytes) (ctx : Context) (session : Session V) (e : Error)
    (hm : ctx.MaxAge < 0)
    (hdel : (s.db.Update (fun b => b.Delete session.ID)).2 = some e) :
    (Store.delete s session).2 = some e
      ∧ (Store.Remove s session.ID).2 = some e
      ∧ (Store.Save deps s now rnd ctx session).err = none
      ∧ (Store.Save deps s now rnd ctx session).err ≠ some e := by
  rw [Store.Save_negative deps s now rnd ctx session hm]
  refine ⟨hdel, hdel, rfl, ?_⟩
  simp

/-- C7 at the input of the test `TestSession_delete`: the database is closed. -/
theorem C7_Save_drops_delete_error_witness :
    (Store.delete (demoStore (closedDB [("a", [8, 50, 1])])) (demoSession "a" [])).2
        = some "database not open"
      ∧ (Store.Save demoDeps (demoStore (closedDB [("a", [8, 50, 1])])) 9 []
        (demoCtx "" (-1)) (demoSession "a" [])).err = none :=
  have h := C7_Save_drops_delete_error demoDeps (demoStore (closedDB [("a", [8, 50, 1])])) 9 []
    (demoCtx "" (-1)) (demoSession "a" []) "database not open" (by decide) (by decide)
  ⟨h.1, h.2.2.1⟩

/-! ## Lemmas on `Store.save` -/

theorem Store.save_gob_err {R V : Type} (deps : Deps R V) (s : Store) (now : Int)
    (ctx : Context) (session : Session V) (e : Error)
    (hgob : deps.gobEncode session.Values = .error e) :
    Store.save deps s now ctx session = (s.db, some e) := by
  simp [Store.save, hgob]

theorem Store.save_marshal_err {R V : Type} (deps : Deps R V) (s : Store) (now : Int)
    (ctx : Context) (session : Session V) (buf : Bytes) (e : Error)
    (hgob : deps.gobEncode session.Values = .ok buf)
    (hmar : deps.Marshal (deps.NewSession now buf
      (if ctx.MaxAge = 0 then deps.DefaultMaxAge else ctx.MaxAge)) = .error e) :
    Store.save deps s now ctx session = (s.db, some e) := by
  simp [Store.save, hgob, hmar]

theorem Store.save_put {R V : Type} (deps : Deps R V) (s : Store) (now : Int)
    (ctx : Context) (session : Session V) (buf data : Bytes)
    (hgob : deps.gobEncode session.Values = .ok buf)
    (hmar : deps.Marshal (deps.NewSession now buf
      (if ctx.MaxAge = 0 then deps.DefaultMaxAge else ctx.MaxAge)) = .ok data) :
    Store.save deps s now ctx session = s.db.Update (fun b => b.Put session.ID data) := by
  simp [Store.save, hgob, hmar]

/-- A failed `Store.save` leaves the database as it was. -/
theorem Store.save_err_db {R V : Type} (deps : Deps R V) (s : Store) (now : Int)
    (ctx : Context) (session : Session V) (e : Error)
    (h : (Store.save deps s now ctx session).2 = some e) :
    (Store.save deps s now ctx session).1 = s.db := by
  cases hgob : deps.gobEncode session.Values with
  | error e1 => rw [Store.save_gob_err deps s now ctx session e1 hgob]
  | ok buf =>
    cases hmar : deps.Marshal (deps.NewSession now buf
        (if ctx.MaxAge = 0 then deps.DefaultMaxAge else ctx.MaxAge)) with
    | error e2 => rw [Store.save_marshal_err deps s now ctx session buf e2 hgob hmar]
    | ok data =>
      rw [Store.save_put deps s now ctx session buf data hgob hmar] at h ⊢
      exact DB.Update_err s.db _ e h

/-- C10: with a max-age that is not negative, when the encoding of the payload
fails, or the record does not marshal, or the put into the store fails, or
the encoding of the token fails, with an error `e`, `Store.Save` returns `e`
and the context, the cookies set on the response included, is as it was; when
the step that fails is the encoding of the payload (or any step up to the
put), the database is as it was too. -/
theorem C10_failing_Save_issues_no_token {R V : Type} (deps : Deps R V) (s : Store)
    (now : Int) (rnd : Bytes) (ctx : Context) (session : Session V)
    (hm : 0 ≤ ctx.MaxAge) :
    (∀ e : Error, deps.gobEncode session.Values = .error e →
        (Store.Save deps s now rnd ctx session).err = some e
          ∧ (Store.Save deps s now rnd ctx session).ctx = ctx
          ∧ (Store.Save deps s now rnd ctx session).ctx.responseCookies = ctx.responseCookies
          ∧ (Store.Save deps s now rnd ctx session).db = s.db)
      ∧ (∀ (e : Error) (buf data : Bytes), deps.gobEncode session.Values = .ok buf →
          deps.Marshal (deps.NewSession now buf
            (if ctx.MaxAge = 0 then deps.DefaultMaxAge else ctx.MaxAge)) = .ok data →
          (s.db.Update (fun b =>
            b.Put (Store.Save deps s now rnd ctx session).session.ID data)).2 = some e →
        (Store.Save deps s now rnd ctx session).err = some e
          ∧ (Store.Save deps s now rnd ctx session).ctx = ctx
          ∧ (Store.Save deps s now rnd ctx session).ctx.responseCookies = ctx.responseCookies
          ∧ (Store.Save deps s now rnd ctx session).db = s.db)
      ∧ (∀ e : Error,
          (Store.save deps s now ctx (Store.Save deps s now rnd ctx session).session).2
            = some e →
        (Store.Save deps s now rnd ctx session).err = some e
          ∧ (Store.Save deps s now rnd ctx session).ctx = ctx
          ∧ (Store.Save deps s now rnd ctx session).ctx.responseCookies = ctx.responseCookies
          ∧ (Store.Save deps s now rnd ctx session).db = s.db)
      ∧ (∀ e : Error,
          (Store.save deps s now ctx (Store.Save deps s now rnd ctx session).session).2
            = none →
          s.codecs.EncodeMulti session.Name
            (Store.Save deps s now rnd ctx session).session.ID = .error e →
        (Store.Save deps s now rnd ctx session).err = some e
          ∧ (Store.Save deps s now rnd ctx session).ctx = ctx
          ∧ (Store.Save deps s now rnd ctx session).ctx.responseCookies
              = ctx.responseCookies) := by
  have hval := Store.Save_session_Values deps s now rnd ctx session hm
  have key : ∀ e : Error,
      (Store.save deps s now ctx (Store.Save deps s now rnd ctx session).session).2 = some e →
      (Store.Save deps s now rnd ctx session).err = some e
        ∧ (Store.Save deps s now rnd ctx session).ctx = ctx
        ∧ (Store.Save deps s now rnd ctx session).ctx.responseCookies = ctx.responseCookies
        ∧ (Store.Save deps s now rnd ctx session).db = s.db := by
    intro e h
    have h1 := Store.Save_save_err deps s now rnd ctx session e hm h
    refine ⟨h1.1, h1.2.1, by rw [h1.2.1], ?_⟩
    rw [h1.2.2]
    exact Store.save_err_db deps s now ctx _ e h
  refine ⟨?_, ?_, key, ?_⟩
  · intro e hgob
    apply key e
    rw [Store.save_gob_err deps s now ctx _ e (by rw [hval]; exact hgob)]
  · intro e buf data hgob hmar hput
    apply key e
    rw [Store.save_put deps s now ctx _ buf data (by rw [hval]; exact hgob) hmar]
    exact hput
  · intro e hsave henc
    have h1 := Store.Save_encode_err deps s now rnd ctx session e hm hsave henc
    exact ⟨h1.1, h1.2.1, by rw [h1.2.1]⟩

/-- C10 at the inputs of the test `TestStore_Save`: a value the payload codec
rejects; a closed database; a store without codecs. -/
theorem C10_failing_Save_issues_no_token_witness :
    ((Store.Save demoDeps (demoStore (openDB [])) 9 [] (demoCtx "" 1)
        (demoSession "a" [13])).err = some "gob: type not registered"
      ∧ (Store.Save demoDeps (demoStore (openDB [])) 9 [] (demoCtx "" 1)
        (demoSession "a" [13])).ctx.responseCookies = []
      ∧ (Store.Save demoDeps (demoStore (openDB [])) 9 [] (demoCtx "" 1)
        (demoSession "a" [13])).db = openDB [])
      ∧ ((Store.Save demoDeps (demoStore (closedDB [])) 9 [] (demoCtx "" 1)
        (demoSession "a" [1])).err = some "database not open"
      ∧ (Store.Save demoDeps (demoStore (closedDB [])) 9 [] (demoCtx "" 1)
        (demoSession "a" [1])).ctx.responseCookies = [])
      ∧ ((Store.Save demoDeps { demoStore (openDB []) with codecs := noCodecs } 9 []
        (demoCtx "" 1) (demoSession "a" [1])).err = some "securecookie: no codecs provided"
      ∧ (Store.Save demoDeps { demoStore (openDB []) with codecs := noCodecs } 9 []
        (demoCtx "" 1) (demoSession "a" [1])).ctx.responseCookies = []) :=
  have h1 := (C10_failing_Save_issues_no_token demoDeps (demoStore (openDB [])) 9 []
    (demoCtx "" 1) (demoSession "a" [13]) (by decide)).1 "gob: type not registered" rfl
  have h2 := (C10_failing_Save_issues_no_token demoDeps (demoStore (closedDB [])) 9 []
    (demoCtx "" 1) (demoSession "a" [1]) (by decide)).2.1 "database not open" [1] [8, 10, 1]
    rfl rfl (by decide)
  have h3 := (C10_failing_Save_issues_no_token demoDeps
    { demoStore (openDB []) with codecs := noCodecs } 9 [] (demoCtx "" 1)
    (demoSession "a" [1]) (by decide)).2.2.2 "securecookie: no codecs provided" (by decide)
    rfl
  ⟨⟨h1.1, h1.2.2.1, h1.2.2.2⟩, ⟨h2.1, h2.2.2.1⟩, ⟨h3.1, h3.2.2⟩⟩

/-! ## Lemmas on the put -/

theorem Bucket.Put_cases (b : Bucket) (key : String) (value : Bytes) :
    ((Bucket.Put b key value).2 = none
        ∧ (Bucket.Put b key value).1 = (key, value) :: (Bucket.Delete b key).1)
      ∨ ((∃ e : Error, (Bucket.Put b key value).2 = some e)
        ∧ (Bucket.Put b key value).1 = b) := by
  unfold Bucket.Put
  by_cases h1 : len key = 0
  · right; simp [h1]
  · by_cases h2 : len key > MaxKeySize
    · right; simp [h1, h2]
    · by_cases h3 : value.length > MaxValueSize
      · right; simp [h1, h2, h3]
      · left; simp [h1, h2, h3]

/-- A committed put stores the value under the key and touches no other key. -/
theorem DB.Update_Put_none (db : DB) (key : String) (value : Bytes)
    (h : (db.Update (fun b => b.Put key value)).2 = none) :
    (db.Update (fun b => b.Put key value)).1.bucket.Get key = some value
      ∧ (∀ other : String, other ≠ key →
        (db.Update (fun b => b.Put key value)).1.bucket.Get other = db.bucket.Get other)
      ∧ (db.Update (fun b => b.Put key value)).1.opened = true := by
  have hu := DB.Update_none db (fun b => b.Put key value) h
  rcases Bucket.Put_cases db.bucket key value with ⟨_, hb⟩ | ⟨⟨e, he⟩, _⟩
  · rw [hu.1]
    simp only [hb]
    refine ⟨by simp [Bucket.Get], ?_, hu.2.2.1⟩
    intro other hne
    have hne2 : ¬ key = other := fun h3 => hne h3.symm
    rw [Bucket.Get, if_neg hne2]
    exact Bucket.Get_Delete_other db.bucket key other hne
  · have h2 := hu.2.1
    simp only at h2
    rw [he] at h2
    cases h2

/-- With a max-age that is not negative, the database `Store.Save` leaves is
the one `Store.save` leaves. -/
theorem Store.Save_db {R V : Type} (deps : Deps R V) (s : Store) (now : Int)
    (rnd : Bytes) (ctx : Context) (session : Session V) (hm : 0 ≤ ctx.MaxAge) :
    (Store.Save deps s now rnd ctx session).db
      = (Store.save deps s now ctx (Store.Save deps s now rnd ctx session).session).1 := by
  cases h : (Store.save deps s now ctx (Store.Save deps s now rnd ctx session).session).2 with
  | some e => exact (Store.Save_save_err deps s now rnd ctx session e hm h).2.2
  | none =>
    cases henc : s.codecs.EncodeMulti session.Name
        (Store.Save deps s now rnd ctx session).session.ID with
    | error e => exact (Store.Save_encode_err deps s now rnd ctx session e hm h henc).2.2
    | ok encoded => exact (Store.Save_ok deps s now rnd ctx session encoded hm h henc).2.2

/-- With a max-age that is not negative, once the payload is encoded and the
record marshalled, the database `Store.Save` leaves is the one left by the put
of that record under the id of the handle. -/
theorem Store.Save_db_put {R V : Type} (deps : Deps R V) (s : Store) (now : Int)
    (rnd : Bytes) (ctx : Context) (session : Session V) (buf data : Bytes)
    (hm : 0 ≤ ctx.MaxAge)
    (hgob : deps.gobEncode session.Values = .ok buf)
    (hmar : deps.Marshal (deps.NewSession now buf
      (if ctx.MaxAge = 0 then deps.DefaultMaxAge else ctx.MaxAge)) = .ok data) :
    (Store.Save deps s now rnd ctx session).db
      = (s.db.Update (fun b =>
          b.Put (Store.Save deps s now rnd ctx session).session.ID data)).1
      ∧ (Store.save deps s now ctx (Store.Save deps s now rnd ctx session).session)
        = s.db.Update (fun b =>
          b.Put (Store.Save deps s now rnd ctx session).session.ID data) := by
  have hval := Store.Save_session_Values deps s now rnd ctx session hm
  have hs := Store.save_put deps s now ctx (Store.Save deps s now rnd ctx session).session
    buf data (by rw [hval]; exact hgob) hmar
  refine ⟨?_, hs⟩
  rw [Store.Save_db deps s now rnd ctx session hm, hs]

/-- C9: the record `Store.Save` writes is built by `shared.NewSession` with
max-age `shared.DefaultMaxAge` when the cookie max-age is 0 and with the cookie
max-age itself when it is positive (the database after the call is the one
left by the put of that record, which is stored under the id when the put
succeeds); with a negative max-age no record is written (each id has its old
record or none); hence, given `shared.DefaultMaxAge > 0`, every record that is
in the store after `Store.Save` and was not there before sits under the id of
the handle and was built with a strictly positive max-age. -/
theorem C9_max_age_policy {R V : Type} (deps : Deps R V) (s : Store) (now : Int)
    (rnd : Bytes) (ctx : Context) (session : Session V) :
    (ctx.MaxAge = 0 → ∀ buf data : Bytes, deps.gobEncode session.Values = .ok buf →
        deps.Marshal (deps.NewSession now buf deps.DefaultMaxAge) = .ok data →
        (Store.Save deps s now rnd ctx session).db
            = (s.db.Update (fun b =>
                b.Put (Store.Save deps s now rnd ctx session).session.ID data)).1
          ∧ ((s.db.Update (fun b =>
                b.Put (Store.Save deps s now rnd ctx session).session.ID data)).2 = none →
              (Store.Save deps s now rnd ctx session).db.bucket.Get
                (Store.Save deps s now rnd ctx session).session.ID = some data))
      ∧ (0 < ctx.MaxAge → ∀ buf data : Bytes, deps.gobEncode session.Values = .ok buf →
        deps.Marshal (deps.NewSession now buf ctx.MaxAge) = .ok data →
        (Store.Save deps s now rnd ctx session).db
            = (s.db.Update (fun b =>
                b.Put (Store.Save deps s now rnd ctx session).session.ID data)).1
          ∧ ((s.db.Update (fun b =>
                b.Put (Store.Save deps s now rnd ctx session).session.ID data)).2 = none →
              (Store.Save deps s now rnd ctx session).db.bucket.Get
                (Store.Save deps s now rnd ctx session).session.ID = some data))
      ∧ (ctx.MaxAge < 0 → ∀ k : String,
        (Store.Save deps s now rnd ctx session).db.bucket.Get k = none
          ∨ (Store.Save deps s now rnd ctx session).db.bucket.Get k = s.db.bucket.Get k)
      ∧ (0 < deps.DefaultMaxAge → ∀ (k : String) (data : Bytes),
        (Store.Save deps s now rnd ctx session).db.bucket.Get k = some data →
        s.db.bucket.Get k ≠ some data →
        k = (Store.Save deps s now rnd ctx session).session.ID
          ∧ ∃ (buf : Bytes) (a : Int), 0 < a
            ∧ a = (if ctx.MaxAge = 0 then deps.DefaultMaxAge else ctx.MaxAge)
            ∧ deps.gobEncode session.Values = .ok buf
            ∧ deps.Marshal (deps.NewSession now buf a) = .ok data) := by
  have hneg : ctx.MaxAge < 0 → ∀ k : String,
      (Store.Save deps s now rnd ctx session).db.bucket.Get k = none
        ∨ (Store.Save deps s now rnd ctx session).db.bucket.Get k = s.db.bucket.Get k := by
    intro hm k
    rw [Store.Save_negative deps s now rnd ctx session hm]
    exact DB.Update_Delete_get s.db session.ID k
  refine ⟨?_, ?_, hneg, ?_⟩
  · intro h0 buf data hgob hmar
    have hm : 0 ≤ ctx.MaxAge := by omega
    have hp := Store.Save_db_put deps s now rnd ctx session buf data hm hgob
      (by rw [if_pos h0]; exact hmar)
    refine ⟨hp.1, ?_⟩
    intro hput
    rw [hp.1]
    exact (DB.Update_Put_none s.db _ data hput).1
  · intro hpos buf data hgob hmar
    have hm : 0 ≤ ctx.MaxAge := by omega
    have hne : ¬ ctx.MaxAge = 0 := by omega
    have hp := Store.Save_db_put deps s now rnd ctx session buf data hm hgob
      (by rw [if_neg hne]; exact hmar)
    refine ⟨hp.1, ?_⟩
    intro hput
    rw [hp.1]
    exact (DB.Update_Put_none s.db _ data hput).1
  · intro hdef k data hafter hbefore
    by_cases hm : ctx.MaxAge < 0
    · rcases hneg hm k with h1 | h1
      · rw [h1] at hafter; cases hafter
      · rw [h1] at hafter; exact absurd hafter hbefore
    · have hm2 : 0 ≤ ctx.MaxAge := by omega
      have hval := Store.Save_session_Values deps s now rnd ctx session hm2
      have hdb := Store.Save_db deps s now rnd ctx session hm2
      cases hgob : deps.gobEncode session.Values with
      | error e1 =>
        rw [hdb, Store.save_gob_err deps s now ctx _ e1 (by rw [hval]; exact hgob)] at hafter
        exact absurd hafter hbefore
      | ok buf =>
        cases hmar : deps.Marshal (deps.NewSession now buf
            (if ctx.MaxAge = 0 then deps.DefaultMaxAge else ctx.MaxAge)) with
        | error e2 =>
          rw [hdb, Store.save_marshal_err deps s now ctx _ buf e2 (by rw [hval]; exact hgob)
            hmar] at hafter
          exact absurd hafter hbefore
        | ok data2 =>
          have hp := Store.Save_db_put deps s now rnd ctx session buf data2 hm2 hgob hmar
          cases hput : (s.db.Update (fun b =>
              b.Put (Store.Save deps s now rnd ctx session).session.ID data2)).2 with
          | some e3 =>
            rw [hp.1, DB.Update_err s.db _ e3 hput] at hafter
            exact absurd hafter hbefore
          | none =>
            have hg := DB.Update_Put_none s.db _ data2 hput
            by_cases hk : k = (Store.Save deps s now rnd ctx session).session.ID
            · refine ⟨hk, buf, _, ?_, rfl, rfl, ?_⟩
              · split <;> omega
              · rw [hp.1, hk, hg.1] at hafter
                cases hafter
                exact hmar
            · rw [hp.1, hg.2.1 k hk] at hafter
              exact absurd hafter hbefore

/-- C9 at concrete inputs: max-age 0 (the default 2592000 is used), max-age 5,
and max-age -1, at time 9 on an empty open database. -/
theorem C9_max_age_policy_witness :
    (Store.Save demoDeps (demoStore (openDB [])) 9 [] (demoCtx "" 0)
        (demoSession "a" [1])).db.bucket.Get "a" = some [8, 2592009, 1]
      ∧ (Store.Save demoDeps (demoStore (openDB [])) 9 [] (demoCtx "" 5)
        (demoSession "a" [1])).db.bucket.Get "a" = some [8, 14, 1]
      ∧ ((Store.Save demoDeps (demoStore (openDB [])) 9 [] (demoCtx "" (-1))
          (demoSession "a" [1])).db.bucket.Get "a" = none
        ∨ (Store.Save demoDeps (demoStore (openDB [])) 9 [] (demoCtx "" (-1))
          (demoSession "a" [1])).db.bucket.Get "a" = (openDB []).bucket.Get "a")
      ∧ ("a" = (Store.Save demoDeps (demoStore (openDB [])) 9 [] (demoCtx "" 5)
          (demoSession "a" [1])).session.ID
        ∧ ∃ (buf : Bytes) (a : Int), 0 < a
          ∧ a = (if (demoCtx "" 5).MaxAge = 0 then demoDeps.DefaultMaxAge
              else (demoCtx "" 5).MaxAge)
          ∧ demoDeps.gobEncode (demoSession "a" [1]).Values = .ok buf
          ∧ demoDeps.Marshal (demoDeps.NewSession 9 buf a) = .ok [8, 14, 1]) :=
  ⟨((C9_max_age_policy demoDeps (demoStore (openDB [])) 9 [] (demoCtx "" 0)
      (demoSession "a" [1])).1 (by decide) [1] [8, 2592009, 1] rfl rfl).2 (by decide),
   ((C9_max_age_policy demoDeps (demoStore (openDB [])) 9 [] (demoCtx "" 5)
      (demoSession "a" [1])).2.1 (by decide) [1] [8, 14, 1] rfl rfl).2 (by decide),
   (C9_max_age_policy demoDeps (demoStore (openDB [])) 9 [] (demoCtx "" (-1))
      (demoSession "a" [1])).2.2.1 (by decide) "a",
   (C9_max_age_policy demoDeps (demoStore (openDB [])) 9 [] (demoCtx "" 5)
      (demoSession "a" [1])).2.2.2 (by decide) "a" [8, 14, 1] (by decide) (by decide)⟩

/-! ## Lemmas on the base-32 encoding -/

theorem base32.encode_mem (x : Nat) : base32.encode x ∈ base32.encodeStd := by
  unfold base32.encode
  have h : x &&& 0x1F < base32.encodeStd.length := by
    have : x &&& 0x1F < 2 ^ 5 := Nat.and_lt_two_pow x (by decide)
    simpa [base32.encodeStd] using this
  rw [List.getD_eq_getElem _ _ h]
  exact List.getElem_mem h

theorem base32.encodeQuantum_mem (b0 b1 b2 b3 b4 : Nat) :
    ∀ c ∈ base32.encodeQuantum b0 b1 b2 b3 b4, c ∈ base32.encodeStd := by
  intro c hc
  simp only [base32.encodeQuantum, List.mem_cons, List.mem_singleton, List.not_mem_nil,
    or_false] at hc
  rcases hc with h | h | h | h | h | h | h | h <;> rw [h] <;> exact base32.encode_mem _

theorem base32.encodeQuantum_length (b0 b1 b2 b3 b4 : Nat) :
    (base32.encodeQuantum b0 b1 b2 b3 b4).length = 8 := rfl

/-- The output of `Encode` is a body of alphabet characters, as long as the
number of 5-bit groups in the input, followed by padding up to a multiple of 8. -/
theorem base32.Encode_body : ∀ l : Bytes, ∃ body : List Char,
    base32.Encode l
        = body ++ List.replicate ((8 - (l.length * 8 + 4) / 5 % 8) % 8) base32.StdPadding
      ∧ body.length = (l.length * 8 + 4) / 5
      ∧ ∀ c ∈ body, c ∈ base32.encodeStd
  | b0 :: b1 :: b2 :: b3 :: b4 :: rest => by
    obtain ⟨body, h1, h2, h3⟩ := base32.Encode_body rest
    refine ⟨base32.encodeQuantum b0 b1 b2 b3 b4 ++ body, ?_, ?_, ?_⟩
    · have hn : ((b0 :: b1 :: b2 :: b3 :: b4 :: rest).length * 8 + 4) / 5
          = (rest.length * 8 + 4) / 5 + 8 := by
        simp only [List.length_cons]
        omega
      rw [base32.Encode, h1, List.append_assoc, hn, Nat.add_mod_right]
    · rw [List.length_append, h2, base32.encodeQuantum_length]
      simp only [List.length_cons]
      omega
    · intro c hc
      rcases List.mem_append.mp hc with h | h
      · exact base32.encodeQuantum_mem _ _ _ _ _ c h
      · exact h3 c h
  | [b0, b1, b2, b3] =>
    ⟨(base32.encodeQuantum b0 b1 b2 b3 0).take 7, by rw [base32.Encode]; simp, by simp [base32.encodeQuantum],
      fun c hc => base32.encodeQuantum_mem _ _ _ _ _ c (List.mem_of_mem_take hc)⟩
  | [b0, b1, b2] =>
    ⟨(base32.encodeQuantum b0 b1 b2 0 0).take 5, by rw [base32.Encode]; simp, by simp [base32.encodeQuantum],
      fun c hc => base32.encodeQuantum_mem _ _ _ _ _ c (List.mem_of_mem_take hc)⟩
  | [b0, b1] =>
    ⟨(base32.encodeQuantum b0 b1 0 0 0).take 4, by rw [base32.Encode]; simp, by simp [base32.encodeQuantum],
      fun c hc => base32.encodeQuantum_mem _ _ _ _ _ c (List.mem_of_mem_take hc)⟩
  | [b0] =>
    ⟨(base32.encodeQuantum b0 0 0 0 0).take 2, by rw [base32.Encode]; simp, by simp [base32.encodeQuantum],
      fun c hc => base32.encodeQuantum_mem _ _ _ _ _ c (List.mem_of_mem_take hc)⟩
  | [] => ⟨[], by rw [base32.Encode]; rfl, rfl, fun c hc => absurd hc (List.not_mem_nil c)⟩

theorem List.dropWhile_replicate_append (p : Char → Bool) (c : Char) (hp : p c = true) (n : Nat) (r : List Char) :
    (List.replicate n c ++ r).dropWhile p = r.dropWhile p := by
  induction n with
  | zero => rfl
  | succ k ih => rw [List.replicate_succ, List.cons_append, List.dropWhile_cons, if_pos hp, ih]

theorem strings.TrimRight_padding (body : List Char) (n : Nat)
    (hbody : ∀ c ∈ body, c ≠ '=') :
    strings.TrimRight (String.mk (body ++ List.replicate n '=')) "=" = String.mk body := by
  unfold strings.TrimRight
  congr 1
  rw [List.reverse_append, List.reverse_replicate, List.dropWhile_replicate_append _ '=' (by decide)]
  have : body.reverse.dropWhile (fun c => "=".data.contains c) = body.reverse := by
    cases hr : body.reverse with
    | nil => rfl
    | cons c r =>
      have hc : c ∈ body := by
        rw [← List.mem_reverse, hr]; exact List.mem_cons_self c r
      have : c ≠ '=' := hbody c hc
      rw [List.dropWhile_cons, if_neg]
      simpa using this
  rw [this, List.reverse_reverse]

/-- The length in bytes of a string of one-byte characters is its number of characters. -/
theorem String.utf8ByteSize_of_ascii (l : List Char) (h : ∀ c ∈ l, c.utf8Size = 1) :
    (String.mk l).utf8ByteSize = l.length := by
  induction l with
  | nil => rfl
  | cons c r ih =>
    have h1 := h c (List.mem_cons_self c r)
    have h2 := ih (fun d hd => h d (List.mem_cons_of_mem c hd))
    simp only [String.utf8ByteSize, String.utf8ByteSize.go, List.length_cons] at h2 ⊢
    rw [h2, h1]

/-- Every character of the alphabet is a letter `A` to `Z` or a digit `2` to `7`, takes
one byte, and is not the padding character. -/
theorem base32.encodeStd_chars : ∀ c ∈ base32.encodeStd,
    c ≠ '=' ∧ c.utf8Size = 1 ∧ (('A' ≤ c ∧ c ≤ 'Z') ∨ ('2' ≤ c ∧ c ≤ '7')) := by
  decide
/-- The identifier generated from 32 bytes: the encoding is this identifier
followed by four padding characters; it has 52 characters, all from the alphabet. -/
theorem base32.generated_ID (rnd : Bytes) (h32 : rnd.length = 32) :
    base32.Encode rnd
        = (strings.TrimRight (base32.EncodeToString rnd) "=").data ++ List.replicate 4 '='
      ∧ (strings.TrimRight (base32.EncodeToString rnd) "=").data.length = 52
      ∧ ∀ c ∈ (strings.TrimRight (base32.EncodeToString rnd) "=").data,
          c ∈ base32.encodeStd := by
  obtain ⟨body, h1, h2, h3⟩ := base32.Encode_body rnd
  rw [h32] at h1 h2
  have h4 : base32.Encode rnd = body ++ List.replicate 4 '=' := h1
  have h5 : strings.TrimRight (base32.EncodeToString rnd) "=" = String.mk body := by
    unfold base32.EncodeToString
    rw [h4]
    exact strings.TrimRight_padding body 4 (fun c hc => (base32.encodeStd_chars c (h3 c hc)).1)
  rw [h5]
  exact ⟨h4, h2, h3⟩

/-- C8: with a max-age that is not negative, when the `ID` of the handle is
empty and the random source gives 32 bytes, `Store.Save` sets the `ID` to the
base-32 encoding of those bytes without its padding; that `ID` has exactly 52
characters (and 52 bytes), each a letter `A` to `Z` or a digit `2` to `7` and
none the padding `=`; when the `ID` is not empty `Store.Save` leaves it as it
is; in both cases the record is put under the `ID` the handle has after the
call; and neither `Store.load` nor `Store.Reload` changes the `ID` of a handle. -/
theorem C8_Save_assigns_identifier {R V : Type} (deps : Deps R V) (s : Store) (now : Int)
    (rnd : Bytes) (ctx : Context) (session : Session V)
    (hm : 0 ≤ ctx.MaxAge) :
    (len session.ID = 0 → rnd.length = 32 →
        (Store.Save deps s now rnd ctx session).session.ID
            = strings.TrimRight (base32.EncodeToString rnd) "="
          ∧ base32.Encode rnd
            = (Store.Save deps s now rnd ctx session).session.ID.data ++ List.replicate 4 '='
          ∧ (Store.Save deps s now rnd ctx session).session.ID.length = 52
          ∧ len (Store.Save deps s now rnd ctx session).session.ID = 52
          ∧ ∀ c ∈ (Store.Save deps s now rnd ctx session).session.ID.data,
              c ≠ '=' ∧ (('A' ≤ c ∧ c ≤ 'Z') ∨ ('2' ≤ c ∧ c ≤ '7')))
      ∧ (len session.ID ≠ 0 →
        (Store.Save deps s now rnd ctx session).session.ID = session.ID)
      ∧ (∀ buf data : Bytes, deps.gobEncode session.Values = .ok buf →
        deps.Marshal (deps.NewSession now buf
          (if ctx.MaxAge = 0 then deps.DefaultMaxAge else ctx.MaxAge)) = .ok data →
        (Store.Save deps s now rnd ctx session).db
            = (s.db.Update (fun b =>
                b.Put (Store.Save deps s now rnd ctx session).session.ID data)).1
          ∧ ((s.db.Update (fun b =>
                b.Put (Store.Save deps s now rnd ctx session).session.ID data)).2 = none →
              (Store.Save deps s now rnd ctx session).db.bucket.Get
                (Store.Save deps s now rnd ctx session).session.ID = some data))
      ∧ (∀ (later : Int) (handle : Session V),
        (Store.load deps s later handle).session.ID = handle.ID
          ∧ (Store.Reload deps s later handle).session.ID = handle.ID) := by
  refine ⟨?_, ?_, ?_, ?_⟩
  · intro hempty h32
    have hid : (Store.Save deps s now rnd ctx session).session.ID
        = strings.TrimRight (base32.EncodeToString rnd) "=" := by
      rw [Store.Save_session deps s now rnd ctx session hm, if_pos hempty]
    obtain ⟨g1, g2, g3⟩ := base32.generated_ID rnd h32
    rw [hid]
    refine ⟨rfl, g1, g2, ?_, ?_⟩
    · have hb := String.utf8ByteSize_of_ascii
        (strings.TrimRight (base32.EncodeToString rnd) "=").data
        (fun c hc => (base32.encodeStd_chars c (g3 c hc)).2.1)
      rw [g2] at hb
      exact hb
    · intro c hc
      exact ⟨(base32.encodeStd_chars c (g3 c hc)).1, (base32.encodeStd_chars c (g3 c hc)).2.2⟩
  · intro hne
    rw [Store.Save_session deps s now rnd ctx session hm, if_neg hne]
  · intro buf data hgob hmar
    have hp := Store.Save_db_put deps s now rnd ctx session buf data hm hgob hmar
    refine ⟨hp.1, ?_⟩
    intro hput
    rw [hp.1]
    exact (DB.Update_Put_none s.db _ data hput).1
  · intro later handle
    refine ⟨(Store.load_session_fields deps s later handle).1, ?_⟩
    unfold Store.Reload
    simp only []
    split
    · exact (Store.load_session_fields deps s later handle).1
    · exact (Store.load_session_fields deps s later handle).1

/-- C8 at a concrete input: a fresh handle, the random bytes 0 to 31, max-age
1024, on an empty open database. -/
theorem C8_Save_assigns_identifier_witness :
    (Store.Save demoDeps (demoStore (openDB [])) 9 (List.range 32) (demoCtx "" 1024)
        (demoSession "" [1])).session.ID
        = "AAAQEAYEAUDAOCAJBIFQYDIOB4IBCEQTCQKRMFYYDENBWHA5DYPQ"
      ∧ (Store.Save demoDeps (demoStore (openDB [])) 9 (List.range 32) (demoCtx "" 1024)
        (demoSession "" [1])).session.ID.length = 52
      ∧ (Store.Save demoDeps (demoStore (openDB [])) 9 (List.range 32) (demoCtx "" 1024)
        (demoSession "" [1])).db.bucket.Get
          (Store.Save demoDeps (demoStore (openDB [])) 9 (List.range 32) (demoCtx "" 1024)
            (demoSession "" [1])).session.ID = some [8, 1033, 1]
      ∧ (Store.Save demoDeps (demoStore (openDB [])) 9 (List.range 32) (demoCtx "" 1024)
        (demoSession "b" [1])).session.ID = "b" :=
  have h := C8_Save_assigns_identifier demoDeps (demoStore (openDB [])) 9 (List.range 32)
    (demoCtx "" 1024) (demoSession "" [1]) (by decide)
  have h2 := C8_Save_assigns_identifier demoDeps (demoStore (openDB [])) 9 (List.range 32)
    (demoCtx "" 1024) (demoSession "b" [1]) (by decide)
  ⟨by decide, (h.1 (by decide) (by decide)).2.2.1,
   (h.2.2.1 [1] [8, 1033, 1] rfl rfl).2 (by decide), h2.2.1 (by decide)⟩

/-- A successful `Store.Save` with a max-age that is not negative went through
every step: the payload was encoded, the record marshalled and put under the
id, and the token encoded and set as the cookie. -/
theorem Store.Save_success {R V : Type} (deps : Deps R V) (s : Store) (now : Int)
    (rnd : Bytes) (ctx : Context) (session : Session V) (hm : 0 ≤ ctx.MaxAge)
    (hsave : (Store.Save deps s now rnd ctx session).err = none) :
    ∃ (buf data : Bytes) (encoded : String),
      deps.gobEncode session.Values = .ok buf
        ∧ deps.Marshal (deps.NewSession now buf
            (if ctx.MaxAge = 0 then deps.DefaultMaxAge else ctx.MaxAge)) = .ok data
        ∧ s.codecs.EncodeMulti session.Name
            (Store.Save deps s now rnd ctx session).session.ID = .ok encoded
        ∧ (Store.Save deps s now rnd ctx session).ctx
            = sessions.SetCookie ctx session.Name encoded
        ∧ (Store.Save deps s now rnd ctx session).db.bucket.Get
            (Store.Save deps s now rnd ctx session).session.ID = some data
        ∧ (∀ other : String, other ≠ (Store.Save deps s now rnd ctx session).session.ID →
            (Store.Save deps s now rnd ctx session).db.bucket.Get other = s.db.bucket.Get other)
        ∧ (Store.Save deps s now rnd ctx session).db.opened = true := by
  have hval := Store.Save_session_Values deps s now rnd ctx session hm
  cases hsv : (Store.save deps s now ctx (Store.Save deps s now rnd ctx session).session).2 with
  | some e =>
    rw [(Store.Save_save_err deps s now rnd ctx session e hm hsv).1] at hsave
    cases hsave
  | none =>
    cases henc : s.codecs.EncodeMulti session.Name
        (Store.Save deps s now rnd ctx session).session.ID with
    | error e =>
      rw [(Store.Save_encode_err deps s now rnd ctx session e hm hsv henc).1] at hsave
      cases hsave
    | ok encoded =>
      have hok := Store.Save_ok deps s now rnd ctx session encoded hm hsv henc
      cases hgob : deps.gobEncode session.Values with
      | error e1 =>
        rw [Store.save_gob_err deps s now ctx _ e1 (by rw [hval]; exact hgob)] at hsv
        cases hsv
      | ok buf =>
        cases hmar : deps.Marshal (deps.NewSession now buf
            (if ctx.MaxAge = 0 then deps.DefaultMaxAge else ctx.MaxAge)) with
        | error e2 =>
          rw [Store.save_marshal_err deps s now ctx _ buf e2 (by rw [hval]; exact hgob)
            hmar] at hsv
          cases hsv
        | ok data =>
          have hp := Store.Save_db_put deps s now rnd ctx session buf data hm hgob hmar
          rw [hp.2] at hsv
          have hg := DB.Update_Put_none s.db _ data hsv
          refine ⟨buf, data, encoded, rfl, hmar, rfl, hok.2.1, ?_, ?_, ?_⟩
          · rw [hp.1]; exact hg.1
          · intro other hne
            rw [hp.1]; exact hg.2.1 other hne
          · rw [hp.1]; exact hg.2.2

/-- C2: let `Store.Save` succeed with a max-age that is not negative on a
handle with values `V`, and let a request carry, as a cookie that is not empty,
the value `Store.Save` set last on the response.  Assume the token codec decodes
what it encodes, the payload codec decodes the payload of `V` to `V`, the
record codec unmarshals what it marshals, a record built by `shared.NewSession`
holds the payload it was given, and the written record is not expired at the
time of reading.  Then `Store.New` on that request returns a nil error and a
handle with `IsNew == false`, the `ID` under which `Store.Save` stored the
record, and `Values` equal to `V`; and `Store.load` on the saved handle
returns `(true, nil)`. -/
theorem C2_Save_then_New_round_trip {R V : Type} (deps : Deps R V) (s : Store)
    (now1 now2 : Int) (rnd : Bytes) (ctx ctx2 : Context) (session : Session V)
    (hm : 0 ≤ ctx.MaxAge)
    (hsave : (Store.Save deps s now1 rnd ctx session).err = none)
    (hcarry : (Store.Save deps s now1 rnd ctx session).ctx.responseCookies.getLast?
      = some (session.Name, ctx2.GetCookie session.Name))
    (hcookie : 0 < len (ctx2.GetCookie session.Name))
    (htok : ∀ id tok : String, s.codecs.EncodeMulti session.Name id = .ok tok →
      s.codecs.DecodeMultiWithMaxAge session.Name tok "" ctx2.MaxAge = (id, none))
    (hgob : ∀ buf : Bytes, deps.gobEncode session.Values = .ok buf →
      deps.gobDecode buf deps.emptyValues = (session.Values, none)
        ∧ deps.gobDecode buf session.Values = (session.Values, none))
    (hrec : ∀ (r : R) (data : Bytes), deps.Marshal r = .ok data → deps.Session data = .ok r)
    (hpay : ∀ (buf : Bytes) (a : Int), deps.Values (deps.NewSession now1 buf a) = buf)
    (hfresh : ∀ buf : Bytes, deps.gobEncode session.Values = .ok buf →
      deps.Expired now2 (deps.NewSession now1 buf
        (if ctx.MaxAge = 0 then deps.DefaultMaxAge else ctx.MaxAge)) = false) :
    (Store.New deps { s with db := (Store.Save deps s now1 rnd ctx session).db } now2 ctx2
        session.Name).err = none
      ∧ (Store.New deps { s with db := (Store.Save deps s now1 rnd ctx session).db } now2 ctx2
        session.Name).session.IsNew = false
      ∧ (Store.New deps { s with db := (Store.Save deps s now1 rnd ctx session).db } now2 ctx2
        session.Name).session.ID = (Store.Save deps s now1 rnd ctx session).session.ID
      ∧ (Store.New deps { s with db := (Store.Save deps s now1 rnd ctx session).db } now2 ctx2
        session.Name).session.Values = session.Values
      ∧ (∃ data : Bytes, (Store.Save deps s now1 rnd ctx session).db.bucket.Get
          (Store.Save deps s now1 rnd ctx session).session.ID = some data)
      ∧ (Store.load deps { s with db := (Store.Save deps s now1 rnd ctx session).db } now2
          (Store.Save deps s now1 rnd ctx session).session).ok = true
      ∧ (Store.load deps { s with db := (Store.Save deps s now1 rnd ctx session).db } now2
          (Store.Save deps s now1 rnd ctx session).session).err = none
      ∧ (Store.New deps { s with db := (Store.Save deps s now1 rnd ctx session).db } now2 ctx2
        session.Name).blocked = false
      ∧ (Store.load deps { s with db := (Store.Save deps s now1 rnd ctx session).db } now2
          (Store.Save deps s now1 rnd ctx session).session).blocked = false := by
  obtain ⟨buf, data, encoded, hgobE, hmar, henc, hctx, hget, -, hopen⟩ :=
    Store.Save_success deps s now1 rnd ctx session hm hsave
  have hval := Store.Save_session_Values deps s now1 rnd ctx session hm
  have hcv : ctx2.GetCookie session.Name = encoded := by
    rw [hctx] at hcarry
    simp [sessions.SetCookie] at hcarry
    exact hcarry.symm
  have hdec := htok _ encoded henc
  rw [← hcv] at hdec
  have hrec2 := hrec _ data hmar
  have hexp := hfresh buf hgobE
  have hd := hgob buf hgobE
  have hcodecs : ({ s with db := (Store.Save deps s now1 rnd ctx session).db } :
      Store).codecs = s.codecs := rfl
  have hl1 := Store.load_fresh deps
    { s with db := (Store.Save deps s now1 rnd ctx session).db } now2
    { ID := (Store.Save deps s now1 rnd ctx session).session.ID, Values := deps.emptyValues,
      IsNew := true, name := session.Name } data _ hopen hget hrec2 hexp
  have hnew := Store.New_decoded deps
    { s with db := (Store.Save deps s now1 rnd ctx session).db } now2 ctx2 session.Name
    hcookie (by rw [hcodecs, hdec]) (by rw [hcodecs, hdec, hl1])
  rw [hcodecs, hdec] at hnew
  have hl2 := Store.load_fresh deps
    { s with db := (Store.Save deps s now1 rnd ctx session).db } now2
    (Store.Save deps s now1 rnd ctx session).session data _ hopen hget hrec2 hexp
  rw [hpay, hd.1] at hl1
  rw [hpay, hval, hd.2] at hl2
  rw [hnew, hl1, hl2]
  exact ⟨rfl, rfl, rfl, rfl, ⟨data, hget⟩, rfl, rfl, rfl, rfl⟩

/-- The codecs of the examples decode what they encode. -/
theorem demoCodecs_round_trip (name id tok dst : String) (maxAge : Int)
    (h : demoCodecs.EncodeMulti name id = .ok tok) :
    demoCodecs.DecodeMultiWithMaxAge name tok dst maxAge = (id, none) := by
  have h2 : tok = "t" ++ id := by
    simp only [demoCodecs, Except.ok.injEq] at h
    exact h.symm
  subst h2
  have h3 : ("t" ++ id).data = 't' :: id.data := by
    rw [String.data_append]
    rfl
  simp only [demoCodecs, h3]

/-- The record codec of the examples unmarshals what it marshals. -/
theorem demoDeps_Session_Marshal (r : DemoRecord) (data : Bytes)
    (h : demoDeps.Marshal r = .ok data) : demoDeps.Session data = .ok r := by
  have h2 : data = 8 :: r.ExpiresAt :: r.Values := by
    simp only [demoDeps, Except.ok.injEq] at h
    exact h.symm
  subst h2
  rfl

/-- C2 at the scenario of the tests: a fresh handle with the values `[102, 111,
111]` is saved at time 9 with max-age 1024; the request that carries the
issued cookie is read at time 100. -/
theorem C2_Save_then_New_round_trip_witness :
    (Store.New demoDeps
        { demoStore (openDB []) with
          db := (Store.Save demoDeps (demoStore (openDB [])) 9 (List.range 32)
            (demoCtx "" 1024) (demoSession "" [102, 111, 111])).db }
        100 (demoCtx "tAAAQEAYEAUDAOCAJBIFQYDIOB4IBCEQTCQKRMFYYDENBWHA5DYPQ" 1024)
        "test").session.IsNew = false
      ∧ (Store.New demoDeps
        { demoStore (openDB []) with
          db := (Store.Save demoDeps (demoStore (openDB [])) 9 (List.range 32)
            (demoCtx "" 1024) (demoSession "" [102, 111, 111])).db }
        100 (demoCtx "tAAAQEAYEAUDAOCAJBIFQYDIOB4IBCEQTCQKRMFYYDENBWHA5DYPQ" 1024)
        "test").session.Values = [102, 111, 111]
      ∧ (Store.New demoDeps
        { demoStore (openDB []) with
          db := (Store.Save demoDeps (demoStore (openDB [])) 9 (List.range 32)
            (demoCtx "" 1024) (demoSession "" [102, 111, 111])).db }
        100 (demoCtx "tAAAQEAYEAUDAOCAJBIFQYDIOB4IBCEQTCQKRMFYYDENBWHA5DYPQ" 1024)
        "test").session.ID = "AAAQEAYEAUDAOCAJBIFQYDIOB4IBCEQTCQKRMFYYDENBWHA5DYPQ" :=
  have h := C2_Save_then_New_round_trip demoDeps (demoStore (openDB [])) 9 100
    (List.range 32) (demoCtx "" 1024)
    (demoCtx "tAAAQEAYEAUDAOCAJBIFQYDIOB4IBCEQTCQKRMFYYDENBWHA5DYPQ" 1024)
    (demoSession "" [102, 111, 111]) (by decide) (by decide) (by decide) (by decide)
    (fun id tok htok => demoCodecs_round_trip "test" id tok "" 1024 htok)
    (fun buf hbuf => by
      have h2 : buf = [102, 111, 111] := by
        simp [demoDeps, demoSession] at hbuf
        exact hbuf.symm
      subst h2
      exact ⟨by decide, by decide⟩)
    (fun r data hr => demoDeps_Session_Marshal r data hr)
    (fun _ _ => rfl)
    (fun buf hbuf => by
      have h2 : buf = [102, 111, 111] := by
        simp [demoDeps, demoSession] at hbuf
        exact hbuf.symm
      subst h2
      decide)
  ⟨h.2.1, h.2.2.2.1, h.2.2.1.trans (by decide)⟩

/-- C11: with a max-age that is not negative, when the payload is encoded,
the record marshalled and the put committed, but the encoding of the token
fails with `e`, `Store.Save` returns `e` and the context, the cookies set on
the response included, is as it was; yet the database now holds the new
record under the `ID` of the handle, every other id keeps its record, and the
handle keeps its identifier: the one this call generated when the `ID` was
empty, its own otherwise. -/
theorem C11_Save_not_atomic {R V : Type} (deps : Deps R V) (s : Store) (now : Int)
    (rnd : Bytes) (ctx : Context) (session : Session V) (buf data : Bytes) (e : Error)
    (hm : 0 ≤ ctx.MaxAge)
    (hgob : deps.gobEncode session.Values = .ok buf)
    (hmar : deps.Marshal (deps.NewSession now buf
      (if ctx.MaxAge = 0 then deps.DefaultMaxAge else ctx.MaxAge)) = .ok data)
    (hput : (s.db.Update (fun b =>
      b.Put (Store.Save deps s now rnd ctx session).session.ID data)).2 = none)
    (henc : s.codecs.EncodeMulti session.Name
      (Store.Save deps s now rnd ctx session).session.ID = .error e) :
    (Store.Save deps s now rnd ctx session).err = some e
      ∧ (Store.Save deps s now rnd ctx session).ctx = ctx
      ∧ (Store.Save deps s now rnd ctx session).ctx.responseCookies = ctx.responseCookies
      ∧ (Store.Save deps s now rnd ctx session).db.bucket.Get
          (Store.Save deps s now rnd ctx session).session.ID = some data
      ∧ (∀ other : String, other ≠ (Store.Save deps s now rnd ctx session).session.ID →
          (Store.Save deps s now rnd ctx session).db.bucket.Get other = s.db.bucket.Get other)
      ∧ (len session.ID = 0 →
          (Store.Save deps s now rnd ctx session).session.ID
            = strings.TrimRight (base32.EncodeToString rnd) "=")
      ∧ (len session.ID ≠ 0 →
          (Store.Save deps s now rnd ctx session).session.ID = session.ID) := by
  have hp := Store.Save_db_put deps s now rnd ctx session buf data hm hgob hmar
  have hsv : (Store.save deps s now ctx
      (Store.Save deps s now rnd ctx session).session).2 = none := by
    rw [hp.2]; exact hput
  have h1 := Store.Save_encode_err deps s now rnd ctx session e hm hsv henc
  have hg := DB.Update_Put_none s.db _ data hput
  refine ⟨h1.1, h1.2.1, by rw [h1.2.1], ?_, ?_, ?_, ?_⟩
  · rw [hp.1]; exact hg.1
  · intro other hne
    rw [hp.1]; exact hg.2.1 other hne
  · intro hempty
    rw [Store.Save_session deps s now rnd ctx session hm, if_pos hempty]
  · intro hne
    rw [Store.Save_session deps s now rnd ctx session hm, if_neg hne]

/-- C11 at the input of the test `TestStore_Save`: a store without codecs, a
fresh handle, the random bytes 0 to 31, max-age 1, time 9, on an empty open
database.  The error is returned, no cookie is set, the record is stored and
the handle keeps the generated identifier. -/
theorem C11_Save_not_atomic_witness :
    (Store.Save demoDeps { demoStore (openDB []) with codecs := noCodecs } 9 (List.range 32)
        (demoCtx "" 1) (demoSession "" [1])).err = some "securecookie: no codecs provided"
      ∧ (Store.Save demoDeps { demoStore (openDB []) with codecs := noCodecs } 9
        (List.range 32) (demoCtx "" 1) (demoSession "" [1])).ctx.responseCookies = []
      ∧ (Store.Save demoDeps { demoStore (openDB []) with codecs := noCodecs } 9
        (List.range 32) (demoCtx "" 1) (demoSession "" [1])).db.bucket
          = [("AAAQEAYEAUDAOCAJBIFQYDIOB4IBCEQTCQKRMFYYDENBWHA5DYPQ", [8, 10, 1])]
      ∧ (Store.Save demoDeps { demoStore (openDB []) with codecs := noCodecs } 9
        (List.range 32) (demoCtx "" 1) (demoSession "" [1])).session.ID
          = "AAAQEAYEAUDAOCAJBIFQYDIOB4IBCEQTCQKRMFYYDENBWHA5DYPQ" :=
  have h := C11_Save_not_atomic demoDeps { demoStore (openDB []) with codecs := noCodecs } 9
    (List.range 32) (demoCtx "" 1) (demoSession "" [1]) [1] [8, 10, 1]
    "securecookie: no codecs provided" (by decide) rfl rfl (by decide) rfl
  ⟨h.1, h.2.2.1, by decide, (h.2.2.2.2.2.1 (by decide)).trans (by decide)⟩

end Boltstore
